import Mathlib

/-!
Verification of the metadata reconciliation engine in
`beets/autotag/match.py`.

The source module is embedded shallowly:

* Python floats (distance scores, thresholds) are modelled as exact
  rationals, using an executable fraction type `Q` whose arithmetic and
  comparisons reduce inside the kernel; `Q.toRat` maps it to `ℚ` for
  order-theoretic reasoning.
* External collaborators (the `Distance` accumulator from
  `beets/autotag/hooks.py`, `beets.util.plurality`, the `lap.lapjv`
  assignment solver, configuration reads and plugin/search hooks) are not
  part of the source file; they are either modelled from the spec (marked
  in their doc comments) or passed in as explicit parameters (`Env`,
  `Config`).
* Fallible / early-return control flow is made explicit (`Option`, sum
  types).
-/

/-- Executable rational numbers: numerator and denominator-minus-one, so
the denominator `dm1 + 1` is always positive.  Used to model the Python
floats of `match.py` exactly; mapped to `ℚ` by `Q.toRat`. -/
structure Q where
  num : Int
  dm1 : Nat
deriving DecidableEq, Repr

/-- The (always positive) denominator of a `Q`. -/
def Q.den (q : Q) : Nat := q.dm1 + 1

/-- Build `n / d`; a zero `d` is treated as denominator 1. -/
def Q.ofFrac (n : Int) (d : Nat) : Q := ⟨n, d - 1⟩

/-- Embed an integer. -/
def Q.ofInt (n : Int) : Q := ⟨n, 0⟩

/-- Semantics of `Q` in `ℚ`. -/
def Q.toRat (q : Q) : ℚ := (q.num : ℚ) / (q.den : ℚ)

def Q.add (a b : Q) : Q :=
  ⟨a.num * (b.den : Int) + b.num * (a.den : Int),
   a.dm1 * b.dm1 + a.dm1 + b.dm1⟩

def Q.sub (a b : Q) : Q :=
  ⟨a.num * (b.den : Int) - b.num * (a.den : Int),
   a.dm1 * b.dm1 + a.dm1 + b.dm1⟩

def Q.mul (a b : Q) : Q :=
  ⟨a.num * b.num, a.dm1 * b.dm1 + a.dm1 + b.dm1⟩

/-- Division.  Division by a representation of zero yields zero, matching
the `ℚ` convention. -/
def Q.div (a b : Q) : Q :=
  if 0 < b.num then ⟨a.num * (b.den : Int), a.den * b.num.toNat - 1⟩
  else if b.num < 0 then ⟨-(a.num * (b.den : Int)), a.den * (-b.num).toNat - 1⟩
  else ⟨0, 0⟩

def Q.abs (a : Q) : Q := ⟨|a.num|, a.dm1⟩

def Q.le (a b : Q) : Bool := a.num * (b.den : Int) ≤ b.num * (a.den : Int)

def Q.lt (a b : Q) : Bool := a.num * (b.den : Int) < b.num * (a.den : Int)

instance : Add Q := ⟨Q.add⟩
instance : Sub Q := ⟨Q.sub⟩
instance : Mul Q := ⟨Q.mul⟩
instance : OfNat Q n := ⟨Q.ofInt n⟩


/-!
## Data model

Shallow embeddings of the types `match.py` manipulates.  `Item` carries
exactly the fields the source reads from a local record; `TrackInfo` and
`AlbumInfo` carry the fields of the canonical records that the source
reads.  Python `None` is modelled by `Option` (or by the empty string for
the string-typed identifier fields, which the source only ever tests for
truthiness or equality).
-/

/-- `Recommendation` (match.py, an `IntEnum` with none=0 < low=1 <
medium=2 < strong=3). -/
inductive Recommendation where
  | none
  | low
  | medium
  | strong
deriving DecidableEq, Repr

/-- The numeric value of the `IntEnum` member. -/
def Recommendation.toNat : Recommendation → Nat
  | .none => 0
  | .low => 1
  | .medium => 2
  | .strong => 3

/-- Python `min` of two `Recommendation` values (IntEnum numeric order). -/
def recMin (a b : Recommendation) : Recommendation :=
  if a.toNat ≤ b.toNat then a else b

/-- `VA_ARTISTS` (match.py line 59). -/
def VA_ARTISTS : List String := ["", "various artists", "various", "va", "unknown"]

/-- A local record (`beets.library.Item`), restricted to the fields
`match.py` reads.  Numeric tag fields default to 0 in beets, so they are
plain `Nat`s whose zero is falsy; string fields default to `""`. -/
structure Item where
  title : String
  artist : String
  album : String
  albumartist : String
  year : Nat
  disctotal : Nat
  mb_albumid : String
  label : String
  barcode : String
  catalognum : String
  country : String
  media : String
  albumdisambig : String
  length : Q
  track : Nat
  disc : Nat
  mb_trackid : String
  comp : Bool
deriving DecidableEq, Repr

/-- A canonical track record (`beets.autotag.hooks.TrackInfo`), restricted
to the fields `match.py` reads; optional fields are `Option`. -/
structure TrackInfo where
  title : String
  artist : String
  track_id : String
  index : Option Nat
  medium_index : Option Nat
  medium : Option Nat
  length : Option Q
deriving DecidableEq, Repr

/-- A canonical release record (`beets.autotag.hooks.AlbumInfo`),
restricted to the fields `match.py` reads. -/
structure AlbumInfo where
  album : String
  album_id : String
  artist : String
  va : Bool
  tracks : List TrackInfo
  year : Option Nat
  original_year : Option Nat
  label : Option String
  catalognum : Option String
  albumdisambig : Option String
  media : Option String
  mediums : Option Nat
  country : Option String
deriving DecidableEq, Repr

/-- Python truthiness of an optional integer (absent and 0 are falsy). -/
def truthyNat : Option Nat → Bool
  | some k => k ≠ 0
  | none => false

/-- Python truthiness of an optional string (absent and `""` are falsy). -/
def truthyStr : Option String → Bool
  | some v => v ≠ ""
  | none => false

/-- Python truthiness of an optional float (absent and 0.0 are falsy). -/
def truthyQ : Option Q → Bool
  | some v => v.num ≠ 0
  | none => false

/-- Modelled from the spec: the `Distance` accumulator of
`beets/autotag/hooks.py` — an external collaborator of `match.py`, absent
from the source tree.  Per §3/§9 of the spec it is an ordered list of
(category key, penalty) contributions, plus, for a release-level
distance, the per-track distances (their own contribution lists, kept in
mapping insertion order). -/
structure Distance where
  entries : List (String × Q)
  tracks : List (List (String × Q)) := []
deriving DecidableEq, Repr

/-- The penalty-category keys contributed so far (with multiplicity;
only membership is ever used). -/
def Distance.keys (d : Distance) : List String := d.entries.map Prod.fst

/-- Modelled from the spec: `Distance.add` — record one named penalty. -/
def Distance.add (d : Distance) (key : String) (pen : Q) : Distance :=
  { d with entries := d.entries ++ [(key, pen)] }

/-- Modelled from the spec: the ratio penalty of `Distance.add_ratio` —
`diff / maxv` with `diff` clamped to `[0, maxv]`, and 0 when `maxv` is
not positive. -/
def ratioPenalty (diff maxv : Q) : Q :=
  if Q.lt 0 maxv then
    Q.div (if Q.lt diff 0 then 0 else if Q.lt maxv diff then maxv else diff) maxv
  else 0

/-- Modelled from the spec: `Distance.add_ratio`. -/
def Distance.add_ratio (d : Distance) (key : String) (diff maxv : Q) : Distance :=
  d.add key (ratioPenalty diff maxv)

/-- Modelled from the spec: `Distance.add_string` — a normalized string
dissimilarity delegated to the external string-similarity collaborator
`sd`. -/
def Distance.add_string (sd : String → String → Q) (d : Distance)
    (key : String) (s1 s2 : String) : Distance :=
  d.add key (sd s1 s2)

/-- Modelled from the spec: `Distance.add_expr` — binary penalty. -/
def Distance.add_expr (d : Distance) (key : String) (b : Bool) : Distance :=
  d.add key (if b then 1 else 0)

/-- Modelled from the spec: `Distance.add_equality` — exact-match
penalty. -/
def Distance.add_equality (d : Distance) (key : String) (eq : Bool) : Distance :=
  d.add key (if eq then 0 else 1)

/-- Modelled from the spec: `Distance.add_number` — one full penalty unit
per unit of numeric difference (a single zero contribution when equal). -/
def Distance.add_number (d : Distance) (key : String) (n1 n2 : Nat) : Distance :=
  let diff := max n1 n2 - min n1 n2
  if diff ≠ 0 then
    { d with entries := d.entries ++ List.replicate diff (key, (1 : Q)) }
  else d.add key 0

/-- Modelled from the spec: `Distance.add_priority` — a priority-rank
penalty: the index of the first matching pattern divided by the number of
patterns, and the maximum penalty 1 when none matches. -/
def Distance.add_priority (d : Distance) (key : String) (value : String)
    (options : List (String → Bool)) : Distance :=
  let pen := match options.findIdx? (fun p => p value) with
    | some i => Q.ofFrac i options.length
    | none => 1
  d.add key pen

/-- Modelled from the spec: `Distance.update` — merge in the penalties of
another distance (the per-track mapping is not merged). -/
def Distance.update (d other : Distance) : Distance :=
  { d with entries := d.entries ++ other.entries }

/-- `AlbumMatch` (from `beets.autotag.hooks`): a scored release-level
candidate, as constructed at match.py line 482. -/
structure AlbumMatch where
  distance : Distance
  info : AlbumInfo
  mapping : List (Item × TrackInfo)
  extra_items : List Item
  extra_tracks : List TrackInfo
deriving DecidableEq, Repr

/-- `TrackMatch` (from `beets.autotag.hooks`): a scored track-level
candidate, as constructed at match.py lines 605 and 633. -/
structure TrackMatch where
  distance : Distance
  info : TrackInfo
deriving DecidableEq, Repr

/-- The `AlbumMatch | TrackMatch` union that `_recommendation` and
`Proposal` range over. -/
inductive AnyMatch where
  | album : AlbumMatch → AnyMatch
  | track : TrackMatch → AnyMatch
deriving DecidableEq, Repr

/-- The shared `.distance` field of either match variant. -/
def AnyMatch.distance : AnyMatch → Distance
  | .album m => m.distance
  | .track m => m.distance

/-- `Proposal` (match.py lines 84-86). -/
structure Proposal where
  candidates : List AnyMatch
  recommendation : Recommendation
deriving DecidableEq, Repr

/-- The configuration values `match.py` reads (external collaborator;
`config[...]` accesses).  Media and country preference patterns are
compiled regexes in the source and are modelled as opaque predicates. -/
structure Config where
  strong_rec_thresh : Q
  medium_rec_thresh : Q
  rec_gap_thresh : Q
  max_rec : String → Option Recommendation
  required : List String
  ignored : List String
  track_length_grace : Q
  track_length_max : Q
  timid : Bool
  preferred_media : List (String → Bool)
  preferred_countries : List (String → Bool)
  original_year : Bool
  extra_tags : List String

/-- A heterogeneous consensus-dictionary value (string or integer
field). -/
inductive FieldVal where
  | s : String → FieldVal
  | n : Nat → FieldVal
deriving DecidableEq, Repr

/-- The external collaborators of `match.py`: the string-similarity
measure and aggregate-score collapse of the `Distance` contract, the
plugin distance hooks, the catalog lookup/search backends, the
`lap.lapjv` assignment solver (as the per-track list of assigned item
indexes it returns), and the current calendar year. -/
structure Env where
  string_dist : String → String → Q
  score : List (String × Q) → Q
  plugin_track_dist : Item → TrackInfo → Distance
  plugin_album_dist : List Item → AlbumInfo → List (Item × TrackInfo) → Distance
  album_for_mbid : String → Option AlbumInfo
  albums_for_id : String → List AlbumInfo
  tracks_for_id : String → List TrackInfo
  album_candidates : List Item → String → String → Bool →
    Option (List (String × FieldVal)) → List AlbumInfo
  item_candidates : Item → String → String → List TrackInfo
  lapjv : List (List Q) → List (Option Nat)
  today_year : Nat

/-- The aggregate score of a `Distance` (its float collapse, an external
weighted sum per the `Distance` contract). -/
def Env.dscore (env : Env) (d : Distance) : Q := env.score d.entries

/-!
## Consensus Extractor (`current_metadata`, match.py lines 92-127)
-/

/-- One step of the `plurality` scan: keep the value with the strictly
larger frequency (ties keep the earlier value). -/
def pluralityStep {α : Type} [DecidableEq α] (xs : List α) :
    α × Nat → α → α × Nat :=
  fun best x => if xs.count x > best.2 then (x, xs.count x) else best

/-- Modelled from the spec: `beets.util.plurality` (external helper, not
in the source tree) — the most frequent value of a list together with its
frequency, ties broken in favour of the first-encountered value. -/
def plurality {α : Type} [DecidableEq α] [Inhabited α] (xs : List α) : α × Nat :=
  xs.foldl (pluralityStep xs) (default, 0)

/-- One field of `current_metadata`: the plurality value and whether it is
unanimous (`freq == len(values)`, match.py line 121). -/
def fieldConsensus {α : Type} [DecidableEq α] [Inhabited α] (xs : List α) : α × Bool :=
  let p := plurality xs
  (p.1, p.2 == xs.length)

/-- The most-common-value dictionary (`likelies`) of `current_metadata`,
one typed field per entry of the source's field list. -/
structure Likelies where
  artist : String
  album : String
  albumartist : String
  year : Nat
  disctotal : Nat
  mb_albumid : String
  label : String
  barcode : String
  catalognum : String
  country : String
  media : String
  albumdisambig : String
deriving DecidableEq, Repr

/-- The unanimity dictionary (`consensus`) of `current_metadata`. -/
structure Consensus where
  artist : Bool
  album : Bool
  albumartist : Bool
  year : Bool
  disctotal : Bool
  mb_albumid : Bool
  label : Bool
  barcode : Bool
  catalognum : Bool
  country : Bool
  media : Bool
  albumdisambig : Bool
deriving DecidableEq, Repr

/-- `current_metadata` (match.py lines 92-127): per-field plurality value
and unanimity flag, with the unanimous non-empty album artist overriding
the derived artist. -/
def current_metadata (items : List Item) : Likelies × Consensus :=
  let cArtist := fieldConsensus (items.map Item.artist)
  let cAlbum := fieldConsensus (items.map Item.album)
  let cAlbumartist := fieldConsensus (items.map Item.albumartist)
  let cYear := fieldConsensus (items.map Item.year)
  let cDisctotal := fieldConsensus (items.map Item.disctotal)
  let cMbAlbumid := fieldConsensus (items.map Item.mb_albumid)
  let cLabel := fieldConsensus (items.map Item.label)
  let cBarcode := fieldConsensus (items.map Item.barcode)
  let cCatalognum := fieldConsensus (items.map Item.catalognum)
  let cCountry := fieldConsensus (items.map Item.country)
  let cMedia := fieldConsensus (items.map Item.media)
  let cAlbumdisambig := fieldConsensus (items.map Item.albumdisambig)
  let likelies : Likelies :=
    { artist :=
        if cAlbumartist.2 && cAlbumartist.1 ≠ "" then cAlbumartist.1
        else cArtist.1
      album := cAlbum.1
      albumartist := cAlbumartist.1
      year := cYear.1
      disctotal := cDisctotal.1
      mb_albumid := cMbAlbumid.1
      label := cLabel.1
      barcode := cBarcode.1
      catalognum := cCatalognum.1
      country := cCountry.1
      media := cMedia.1
      albumdisambig := cAlbumdisambig.1 }
  let consensus : Consensus :=
    { artist := cArtist.2
      album := cAlbum.2
      albumartist := cAlbumartist.2
      year := cYear.2
      disctotal := cDisctotal.2
      mb_albumid := cMbAlbumid.2
      label := cLabel.2
      barcode := cBarcode.2
      catalognum := cCatalognum.2
      country := cCountry.2
      media := cMedia.2
      albumdisambig := cAlbumdisambig.2 }
  (likelies, consensus)

/-- The `likelies` dictionary in its Python insertion order, for the
`extra_tags` restriction in `tag_album`. -/
def Likelies.items (l : Likelies) : List (String × FieldVal) :=
  [("artist", .s l.artist), ("album", .s l.album),
   ("albumartist", .s l.albumartist), ("year", .n l.year),
   ("disctotal", .n l.disctotal), ("mb_albumid", .s l.mb_albumid),
   ("label", .s l.label), ("barcode", .s l.barcode),
   ("catalognum", .s l.catalognum), ("country", .s l.country),
   ("media", .s l.media), ("albumdisambig", .s l.albumdisambig)]

/-!
## Track Distance Calculator (`track_distance`, match.py lines 162-227)
-/

/-- ASCII lowercase of one character (the case mapping relevant to the
all-ASCII `VA_ARTISTS` sentinels; models Python `str.lower()` on the
strings the source compares against them). -/
def lowerChar (c : Char) : Char :=
  if 65 ≤ c.toNat ∧ c.toNat ≤ 90 then Char.ofNat (c.toNat + 32) else c

/-- ASCII lowercase of a string (Python `str.lower()`). -/
def strLower (s : String) : String := ⟨s.data.map lowerChar⟩

/-- `track_index_changed` (match.py lines 162-166): true when the item's
track number matches neither the canonical per-medium index nor the
canonical global index. -/
def track_index_changed (item : Item) (track_info : TrackInfo) : Bool :=
  !(track_info.medium_index == some item.track
    || track_info.index == some item.track)

/-- `track_distance` (match.py lines 181-227).  The
`track_length_grace`/`track_length_max` tunables come from `cfg`;
`incl_artist` includes the artist factor (various-artist releases). -/
def track_distance (env : Env) (cfg : Config) (item : Item)
    (track_info : TrackInfo) (incl_artist : Bool) : Distance :=
  let dist : Distance := { entries := [] }
  -- Length.
  let dist :=
    if truthyQ track_info.length then
      dist.add_ratio "track_length"
        ((item.length - track_info.length.getD 0).abs - cfg.track_length_grace)
        cfg.track_length_max
    else dist
  -- Title.
  let dist := dist.add_string env.string_dist "track_title" item.title track_info.title
  -- Artist.  Only check if there is actually an artist in the track data.
  let dist :=
    if incl_artist && track_info.artist ≠ ""
        && (strLower item.artist ∉ VA_ARTISTS) then
      dist.add_string env.string_dist "track_artist" item.artist track_info.artist
    else dist
  -- Track index.
  let dist :=
    if truthyNat track_info.index && item.track ≠ 0 then
      dist.add_expr "track_index" (track_index_changed item track_info)
    else dist
  -- Track ID.
  let dist :=
    if item.mb_trackid ≠ "" then
      dist.add_expr "track_id" (item.mb_trackid ≠ track_info.track_id)
    else dist
  -- Penalize mismatching disc numbers.
  let dist :=
    if truthyNat track_info.medium && item.disc ≠ 0 then
      dist.add_expr "medium" (some item.disc ≠ track_info.medium)
    else dist
  -- Plugins.
  dist.update (env.plugin_track_dist item track_info)

/-!
## Optimal Track Assignment (`assign_items`, match.py lines 130-159)

The `lap.lapjv` solver is external; `Env.lapjv` stands for the
`assigned_item_idxs` output it returns (one entry per canonical track:
the index of the item assigned to that track, or none for `-1`).
-/

/-- Boolean lexicographic comparison of character lists (the order of
Python string comparison, used in the unmatched-list sort keys). -/
def leChars : List Char → List Char → Bool
  | [], _ => true
  | _ :: _, [] => false
  | a :: as, b :: bs =>
    if a.toNat < b.toNat then true
    else if b.toNat < a.toNat then false
    else leChars as bs

/-- Lexicographic combination: compare by a numeric component first, then
fall through to the remaining key. -/
def natThen (x y : Nat) (k : Bool) : Bool :=
  if x < y then true else if y < x then false else k

/-- The sort key order `(i.disc, i.track, i.title)` for extra items
(match.py line 156). -/
def itemLe (a b : Item) : Bool :=
  natThen a.disc b.disc (natThen a.track b.track (leChars a.title.data b.title.data))

/-- The sort key order `(t.index, t.title)` for extra tracks (match.py
line 158); an absent index sorts like 0 (in Python a `None` index would
make the key comparison fail, which does not occur for catalog tracks). -/
def trackLe (a b : TrackInfo) : Bool :=
  natThen (a.index.getD 0) (b.index.getD 0) (leChars a.title.data b.title.data)

/-- The cost matrix of `assign_items` (match.py line 142): track
distances without the artist factor. -/
def costMatrix (env : Env) (cfg : Config) (items : List Item)
    (tracks : List TrackInfo) : List (List Q) :=
  items.map fun i =>
    tracks.map fun t => env.dscore (track_distance env cfg i t false)

/-- `assign_items` (match.py lines 130-159): build the cost matrix of
track distances, hand it to the external solver, read back the pairing,
and sort the leftovers. -/
def assign_items (env : Env) (cfg : Config) (items : List Item)
    (tracks : List TrackInfo) :
    List (Item × TrackInfo) × List Item × List TrackInfo :=
  let assigned_item_idxs := env.lapjv (costMatrix env cfg items tracks)
  let mapping := (assigned_item_idxs.zip tracks).filterMap fun p =>
    match p.1 with
    | some iidx => (items.get? iidx).map fun it => (it, p.2)
    | none => Option.none
  let extra_items :=
    (items.filter fun i => i ∉ mapping.map Prod.fst).mergeSort itemLe
  let extra_tracks :=
    (tracks.filter fun t => t ∉ mapping.map Prod.snd).mergeSort trackLe
  (mapping, extra_items, extra_tracks)

/-!
## Release Distance Calculator (`distance`, match.py lines 230-343)
-/

/-- `abs(a - b)` for the year/medium arithmetic on naturals. -/
def natAbsDiff (a b : Nat) : Nat := max a b - min a b

/-- `distance` (match.py lines 230-343): the release-level Distance. -/
def distance (env : Env) (cfg : Config) (items : List Item)
    (album_info : AlbumInfo) (mapping : List (Item × TrackInfo)) : Distance :=
  let likelies := (current_metadata items).1
  let dist : Distance := { entries := [] }
  -- Artist, if not various.
  let dist :=
    if !album_info.va then
      dist.add_string env.string_dist "artist" likelies.artist album_info.artist
    else dist
  -- Album.
  let dist := dist.add_string env.string_dist "album" likelies.album album_info.album
  -- Current or preferred media.
  let dist :=
    if truthyStr album_info.media then
      if !cfg.preferred_media.isEmpty then
        dist.add_priority "media" (album_info.media.getD "") cfg.preferred_media
      else if likelies.media ≠ "" then
        dist.add_equality "media" (album_info.media == some likelies.media)
      else dist
    else dist
  -- Mediums.
  let dist :=
    if likelies.disctotal ≠ 0 && truthyNat album_info.mediums then
      dist.add_number "mediums" likelies.disctotal (album_info.mediums.getD 0)
    else dist
  -- Prefer earliest release / year.
  let dist :=
    if truthyNat album_info.year && cfg.original_year then
      -- Assume 1889 (earliest first gramophone discs) if the original
      -- year is unknown.
      let original :=
        if truthyNat album_info.original_year then album_info.original_year.getD 0
        else 1889
      let diff := natAbsDiff (album_info.year.getD 0) original
      let diff_max := natAbsDiff env.today_year original
      dist.add_ratio "year" (Q.ofInt diff) (Q.ofInt diff_max)
    else if likelies.year ≠ 0 && truthyNat album_info.year then
      if album_info.year == some likelies.year
          || album_info.original_year == some likelies.year then
        -- No penalty for matching release or original year.
        dist.add "year" 0
      else if truthyNat album_info.original_year then
        -- Prefer matches closest to the release year.
        let diff := natAbsDiff likelies.year (album_info.year.getD 0)
        let diff_max := natAbsDiff env.today_year (album_info.original_year.getD 0)
        dist.add_ratio "year" (Q.ofInt diff) (Q.ofInt diff_max)
      else
        -- Full penalty when there is no original year.
        dist.add "year" 1
    else dist
  -- Preferred countries / country.
  let dist :=
    if truthyStr album_info.country && !cfg.preferred_countries.isEmpty then
      dist.add_priority "country" (album_info.country.getD "") cfg.preferred_countries
    else if likelies.country ≠ "" && truthyStr album_info.country then
      dist.add_string env.string_dist "country" likelies.country (album_info.country.getD "")
    else dist
  -- Label.
  let dist :=
    if likelies.label ≠ "" && truthyStr album_info.label then
      dist.add_string env.string_dist "label" likelies.label (album_info.label.getD "")
    else dist
  -- Catalog number.
  let dist :=
    if likelies.catalognum ≠ "" && truthyStr album_info.catalognum then
      dist.add_string env.string_dist "catalognum" likelies.catalognum
        (album_info.catalognum.getD "")
    else dist
  -- Disambiguation.
  let dist :=
    if likelies.albumdisambig ≠ "" && truthyStr album_info.albumdisambig then
      dist.add_string env.string_dist "albumdisambig" likelies.albumdisambig
        (album_info.albumdisambig.getD "")
    else dist
  -- Album ID.
  let dist :=
    if likelies.mb_albumid ≠ "" then
      dist.add_equality "album_id" (likelies.mb_albumid == album_info.album_id)
    else dist
  -- Tracks.
  let trackDists := mapping.map fun p => track_distance env cfg p.1 p.2 album_info.va
  let dist := trackDists.foldl (fun d td => d.add "tracks" (env.dscore td)) dist
  let dist := { dist with tracks := trackDists.map Distance.entries }
  -- Missing tracks.
  let missing := List.replicate (album_info.tracks.length - mapping.length)
    ("missing_tracks", (1 : Q))
  let dist := { dist with entries := dist.entries ++ missing }
  -- Unmatched tracks.
  let unmatched := List.replicate (items.length - mapping.length)
    ("unmatched_tracks", (1 : Q))
  let dist := { dist with entries := dist.entries ++ unmatched }
  -- Plugins.
  dist.update (env.plugin_album_dist items album_info mapping)

/-!
## Identifier lookup (`match_by_id`, match.py lines 346-367)
-/

/-- `match_by_id` (match.py lines 346-367): collect the truthy
MusicBrainz album ids of the items; with none, or without unanimity,
return `none`; otherwise look the consensus id up. -/
def match_by_id (env : Env) (items : List Item) : Option AlbumInfo :=
  let albumids := (items.filter fun i => i.mb_albumid ≠ "").map Item.mb_albumid
  match albumids with
  | [] => Option.none
  | first :: rest =>
    if rest.all (· == first) then env.album_for_mbid first
    else Option.none

/-!
## Recommendation Classifier (`_recommendation`, match.py lines 370-424)
-/

/-- The penalty-category keys the downgrade pass collects from the best
candidate: the keys of its own Distance plus, for a release-level match,
the keys of each of its per-track Distances (match.py lines 407-410). -/
def downgradeKeys (best : AnyMatch) : List String :=
  best.distance.keys ++
    (match best with
     | .album _ => (best.distance.tracks.map (fun te => te.map Prod.fst)).flatten
     | .track _ => [])

/-- The downgrade loop (match.py lines 411-422): clamp the recommendation
by the configured per-category ceiling of every collected key. -/
def applyMaxRec (cfg : Config) (r : Recommendation) (keys : List String) :
    Recommendation :=
  keys.foldl (fun cur key =>
    match cfg.max_rec key with
    | some m => recMin cur m
    | Option.none => cur) r

/-- `_recommendation` (match.py lines 370-424). -/
def _recommendation (env : Env) (cfg : Config) (results : List AnyMatch) :
    Recommendation :=
  match results with
  | [] => .none
  | best :: rest =>
    let min_dist := env.dscore best.distance
    let baseRec : Option Recommendation :=
      if Q.lt min_dist cfg.strong_rec_thresh then some .strong
      else if Q.le min_dist cfg.medium_rec_thresh then some .medium
      else match rest with
        | [] => some .low
        | second :: _ =>
          if Q.le cfg.rec_gap_thresh (env.dscore second.distance - min_dist) then
            some .low
          else Option.none
    match baseRec with
    | some r => applyMaxRec cfg r (downgradeKeys best)
    | Option.none => .none

/-- `_sort_candidates` (match.py lines 430-432): stable ascending sort by
aggregate distance. -/
def _sort_candidates (env : Env) (cands : List AnyMatch) : List AnyMatch :=
  cands.mergeSort fun a b => Q.le (env.dscore a.distance) (env.dscore b.distance)

/-!
## Candidate Accumulator (`_add_candidate`, match.py lines 435-484)
-/

/-- Python dict assignment `d[k] = v`: replace in place if the key
exists, else append. -/
def dictInsert {α : Type} (k : String) (v : α) :
    List (String × α) → List (String × α)
  | [] => [(k, v)]
  | (k2, v2) :: rest =>
    if k2 == k then (k, v) :: rest else (k2, v2) :: dictInsert k v rest

/-- Modelled from the spec: `getattr(info, req_tag) is None` for a
configured required tag — only the optional release-level fields of the
candidate can be absent; the remaining attributes read by the source are
always present on a `hooks.AlbumInfo`. -/
def AlbumInfo.attrIsNone (info : AlbumInfo) (tag : String) : Bool :=
  if tag == "year" then info.year == Option.none
  else if tag == "original_year" then info.original_year == Option.none
  else if tag == "label" then info.label == Option.none
  else if tag == "catalognum" then info.catalognum == Option.none
  else if tag == "albumdisambig" then info.albumdisambig == Option.none
  else if tag == "media" then info.media == Option.none
  else if tag == "mediums" then info.mediums == Option.none
  else if tag == "country" then info.country == Option.none
  else false

/-- `_add_candidate` (match.py lines 435-484): validate, deduplicate and
filter one candidate release into the result dictionary. -/
def _add_candidate (env : Env) (cfg : Config) (items : List Item)
    (results : List (String × AlbumMatch)) (info : AlbumInfo) :
    List (String × AlbumMatch) :=
  -- Discard albums with zero tracks.
  if info.tracks = [] then results
  -- Prevent duplicates.
  else if info.album_id ≠ "" && (info.album_id ∈ results.map Prod.fst) then
    results
  -- Discard matches without required tags.
  else if cfg.required.any (fun req_tag => info.attrIsNone req_tag) then results
  else
    -- Find mapping between the items and the track info.
    let (mapping, extra_items, extra_tracks) := assign_items env cfg items info.tracks
    -- Get the change distance.
    let dist := distance env cfg items info mapping
    -- Skip matches with ignored penalties.
    let penalties := dist.keys
    if cfg.ignored.any (fun pen => pen ∈ penalties) then results
    else
      dictInsert info.album_id
        ⟨dist, info, mapping, extra_items, extra_tracks⟩ results

/-!
## Reconciliation Orchestrators (`tag_album` / `tag_item`, match.py
lines 487-639)

The early returns of the source are made explicit with sum types; the
`assert rec is not None` in `tag_item` is modelled by an `Option` result
(`none` = assertion failure).
-/

/-- `candidates.values()` of the album result dictionary, as the
classifier input. -/
def albumValues (cands : List (String × AlbumMatch)) : List AnyMatch :=
  cands.map fun p => AnyMatch.album p.2

/-- `candidates.values()` of the track result dictionary, as the
classifier input. -/
def trackValues (cands : List (String × TrackMatch)) : List AnyMatch :=
  cands.map fun p => AnyMatch.track p.2

/-- `tag_album` (match.py lines 487-576). -/
def tag_album (env : Env) (cfg : Config) (items : List Item)
    (search_artist search_album : Option String) (search_ids : List String) :
    String × String × Proposal :=
  -- Get current metadata.
  let (likelies, consensus) := current_metadata items
  let cur_artist := likelies.artist
  let cur_album := likelies.album
  let afterSearch : (List (String × AlbumMatch)) ⊕ Proposal :=
    if !search_ids.isEmpty then
      -- Search by explicit ID.
      Sum.inl (search_ids.foldl (fun cands search_id =>
        (env.albums_for_id search_id).foldl
          (fun c info => _add_candidate env cfg items c info) cands) [])
    else
      -- Try search based on current ID.
      let afterId : (List (String × AlbumMatch)) ⊕ Proposal :=
        match match_by_id env items with
        | some id_info =>
          let cands := _add_candidate env cfg items [] id_info
          let r := _recommendation env cfg (albumValues cands)
          if !cands.isEmpty && !cfg.timid && r = .strong then
            -- A very good MBID match: return immediately.
            Sum.inr ⟨albumValues cands, r⟩
          else Sum.inl cands
        | Option.none => Sum.inl []
      match afterId with
      | Sum.inr p => Sum.inr p
      | Sum.inl cands =>
        -- Search terms.
        let st := if truthyStr search_artist && truthyStr search_album then
            (search_artist.getD "", search_album.getD "")
          else (cur_artist, cur_album)
        let extra_tags : Option (List (String × FieldVal)) :=
          if !cfg.extra_tags.isEmpty then
            some (likelies.items.filter fun kv => kv.1 ∈ cfg.extra_tags)
          else Option.none
        -- Is this album likely to be a "various artist" release?
        let va_likely := !consensus.artist
          || (strLower st.1 ∈ VA_ARTISTS)
          || items.any Item.comp
        -- Get the results from the data sources.
        Sum.inl ((env.album_candidates items st.1 st.2 va_likely extra_tags).foldl
          (fun c info => _add_candidate env cfg items c info) cands)
  match afterSearch with
  | Sum.inr p => (cur_artist, cur_album, p)
  | Sum.inl cands =>
    -- Sort and get the recommendation.
    let candidates_sorted := _sort_candidates env (albumValues cands)
    (cur_artist, cur_album,
      ⟨candidates_sorted, _recommendation env cfg candidates_sorted⟩)

/-- The inner loop of `tag_item`'s ID search (match.py lines 603-615):
accumulate each found track, reclassify, and return early on a strong
match when not timid. -/
def tagItemIdLoop (env : Env) (cfg : Config) (item : Item) :
    List TrackInfo → List (String × TrackMatch) → Option Recommendation →
    (List (String × TrackMatch) × Option Recommendation) ⊕ Proposal
  | [], cands, r => Sum.inl (cands, r)
  | track_info :: rest, cands, _ =>
    let dist := track_distance env cfg item track_info true
    let cands := dictInsert track_info.track_id ⟨dist, track_info⟩ cands
    let sorted := _sort_candidates env (trackValues cands)
    let r := _recommendation env cfg sorted
    if r = .strong && !cfg.timid then Sum.inr ⟨sorted, r⟩
    else tagItemIdLoop env cfg item rest cands (some r)

/-- The outer loop of `tag_item`'s ID search (match.py lines 601-615). -/
def tagItemIds (env : Env) (cfg : Config) (item : Item) :
    List String → List (String × TrackMatch) → Option Recommendation →
    (List (String × TrackMatch) × Option Recommendation) ⊕ Proposal
  | [], cands, r => Sum.inl (cands, r)
  | trackid :: rest, cands, r =>
    match tagItemIdLoop env cfg item (env.tracks_for_id trackid) cands r with
    | Sum.inl (cands2, r2) => tagItemIds env cfg item rest cands2 r2
    | Sum.inr p => Sum.inr p

/-- `tag_item` (match.py lines 579-639).  The result is `none` exactly
when the source's `assert rec is not None` would fail. -/
def tag_item (env : Env) (cfg : Config) (item : Item)
    (search_artist search_title : Option String) (search_ids : List String) :
    Option Proposal :=
  -- First, try matching by MusicBrainz ID.
  let trackids :=
    if !search_ids.isEmpty then search_ids
    else if item.mb_trackid ≠ "" then [item.mb_trackid] else []
  match tagItemIds env cfg item trackids [] Option.none with
  | Sum.inr p => some p
  | Sum.inl (cands, r) =>
    -- If we are searching by ID, do not proceed to metadata search.
    if !search_ids.isEmpty then
      if !cands.isEmpty then
        match r with
        | some rr => some ⟨_sort_candidates env (trackValues cands), rr⟩
        | Option.none => Option.none
      else some ⟨[], .none⟩
    else
      -- Search terms.
      let st := if truthyStr search_artist && truthyStr search_title then
          (search_artist.getD "", search_title.getD "")
        else (item.artist, item.title)
      -- Get and evaluate candidate metadata.
      let cands := (env.item_candidates item st.1 st.2).foldl
        (fun c track_info =>
          dictInsert track_info.track_id
            ⟨track_distance env cfg item track_info true, track_info⟩ c) cands
      -- Sort by distance and return with recommendation.
      let sorted := _sort_candidates env (trackValues cands)
      some ⟨sorted, _recommendation env cfg sorted⟩


/-!
## Concrete instances used by the witnesses and scenarios
-/

/-- An all-default local record (beets field defaults: empty strings and
zeros). -/
def emptyItem : Item :=
  ⟨"", "", "", "", 0, 0, "", "", "", "", "", "", "", Q.ofInt 0, 0, 0, "", false⟩

/-- An all-default canonical track record. -/
def emptyTrackInfo : TrackInfo :=
  ⟨"", "", "", Option.none, Option.none, Option.none, Option.none⟩

/-- An all-default canonical release record with a single track. -/
def emptyAlbumInfo : AlbumInfo :=
  ⟨"", "", "", false, [emptyTrackInfo], Option.none, Option.none, Option.none,
   Option.none, Option.none, Option.none, Option.none, Option.none⟩

/-- A concrete environment: the aggregate score sums the raw penalties,
string dissimilarity is 0, plugins contribute nothing, the catalog is
empty, and the solver assigns nothing. -/
def envDefault : Env where
  string_dist := fun _ _ => 0
  score := fun es => es.foldl (fun a p => a + p.2) 0
  plugin_track_dist := fun _ _ => { entries := [] }
  plugin_album_dist := fun _ _ _ => { entries := [] }
  album_for_mbid := fun _ => Option.none
  albums_for_id := fun _ => []
  tracks_for_id := fun _ => []
  album_candidates := fun _ _ _ _ _ => []
  item_candidates := fun _ _ _ => []
  lapjv := fun _ => []
  today_year := 2025

/-- A concrete configuration holding beets' default thresholds
(strong 0.04, medium 0.25, gap 0.25), no ceilings, no required or
ignored categories. -/
def cfgDefault : Config where
  strong_rec_thresh := Q.ofFrac 4 100
  medium_rec_thresh := Q.ofFrac 25 100
  rec_gap_thresh := Q.ofFrac 25 100
  max_rec := fun _ => Option.none
  required := []
  ignored := []
  track_length_grace := Q.ofInt 10
  track_length_max := Q.ofInt 30
  timid := false
  preferred_media := []
  preferred_countries := []
  original_year := false
  extra_tags := []

/-- A local record carrying canonical album id "A1". -/
def itemA1 : Item := { emptyItem with mb_albumid := "A1" }

/-- A local record carrying canonical album id "A2". -/
def itemA2 : Item := { emptyItem with mb_albumid := "A2" }

/-- The identifier-lookup scenario record set: three records with id
"A1" and a fourth with id "A2". -/
def itemsIdScenario : List Item := [itemA1, itemA1, itemA1, itemA2]

/-- An environment whose catalog lookup succeeds on every id — used to
show that a no-consensus record set yields no result even though a
lookup would have succeeded. -/
def envLookupAlways : Env :=
  { envDefault with album_for_mbid := fun _ => some emptyAlbumInfo }

/-- All values of a list are identical. -/
def unanimousIn {α : Type} (xs : List α) : Prop := ∀ a ∈ xs, ∀ b ∈ xs, a = b

/-- `v` is one of the values of `xs` and has maximal frequency there. -/
def mostCommonIn {α : Type} [DecidableEq α] (v : α) (xs : List α) : Prop :=
  v ∈ xs ∧ ∀ y ∈ xs, xs.count y ≤ xs.count v

/-- The full specification of the Consensus Extractor on a record set:
each unanimity flag is true exactly when the records agree on the field,
each plurality value is a most frequent value of the field, and a
unanimous non-empty album artist overrides the derived artist. -/
def CurrentMetadataSpec (items : List Item) : Prop :=
  let lk := (current_metadata items).1
  let cs := (current_metadata items).2
  (cs.artist = true ↔ unanimousIn (items.map Item.artist))
  ∧ (cs.album = true ↔ unanimousIn (items.map Item.album))
  ∧ (cs.albumartist = true ↔ unanimousIn (items.map Item.albumartist))
  ∧ (cs.year = true ↔ unanimousIn (items.map Item.year))
  ∧ (cs.disctotal = true ↔ unanimousIn (items.map Item.disctotal))
  ∧ (cs.mb_albumid = true ↔ unanimousIn (items.map Item.mb_albumid))
  ∧ (cs.label = true ↔ unanimousIn (items.map Item.label))
  ∧ (cs.barcode = true ↔ unanimousIn (items.map Item.barcode))
  ∧ (cs.catalognum = true ↔ unanimousIn (items.map Item.catalognum))
  ∧ (cs.country = true ↔ unanimousIn (items.map Item.country))
  ∧ (cs.media = true ↔ unanimousIn (items.map Item.media))
  ∧ (cs.albumdisambig = true ↔ unanimousIn (items.map Item.albumdisambig))
  ∧ mostCommonIn lk.album (items.map Item.album)
  ∧ mostCommonIn lk.albumartist (items.map Item.albumartist)
  ∧ mostCommonIn lk.year (items.map Item.year)
  ∧ mostCommonIn lk.disctotal (items.map Item.disctotal)
  ∧ mostCommonIn lk.mb_albumid (items.map Item.mb_albumid)
  ∧ mostCommonIn lk.label (items.map Item.label)
  ∧ mostCommonIn lk.barcode (items.map Item.barcode)
  ∧ mostCommonIn lk.catalognum (items.map Item.catalognum)
  ∧ mostCommonIn lk.country (items.map Item.country)
  ∧ mostCommonIn lk.media (items.map Item.media)
  ∧ mostCommonIn lk.albumdisambig (items.map Item.albumdisambig)
  ∧ ((cs.albumartist = true ∧ lk.albumartist ≠ "") →
      lk.artist = lk.albumartist)
  ∧ (¬(cs.albumartist = true ∧ lk.albumartist ≠ "") →
      mostCommonIn lk.artist (items.map Item.artist))

/-- The ten-record consensus scenario: unanimous album artist
"Artist X", pairwise different track artists. -/
def items10 : List Item :=
  [{ emptyItem with albumartist := "Artist X", artist := "A0" },
   { emptyItem with albumartist := "Artist X", artist := "A1" },
   { emptyItem with albumartist := "Artist X", artist := "A2" },
   { emptyItem with albumartist := "Artist X", artist := "A3" },
   { emptyItem with albumartist := "Artist X", artist := "A4" },
   { emptyItem with albumartist := "Artist X", artist := "A5" },
   { emptyItem with albumartist := "Artist X", artist := "A6" },
   { emptyItem with albumartist := "Artist X", artist := "A7" },
   { emptyItem with albumartist := "Artist X", artist := "A8" },
   { emptyItem with albumartist := "Artist X", artist := "A9" }]

/-- A concrete local record for the track-distance witnesses. -/
def itemWit : Item :=
  { emptyItem with
      title := "Song", artist := "Bob", length := Q.ofInt 180,
      track := 2, disc := 1, mb_trackid := "t1" }

/-- A concrete canonical track for the track-distance witnesses. -/
def trackWit : TrackInfo :=
  { title := "Song", artist := "Alice", track_id := "t1",
    index := some 2, medium_index := some 2, medium := some 1,
    length := some (Q.ofInt 181) }

/-- A track-level candidate whose aggregate score under
`envDefault.score` is exactly `s`. -/
def scoreMatch (s : Q) : AnyMatch :=
  AnyMatch.track ⟨{ entries := [("score", s)] }, emptyTrackInfo⟩

/-- The gap scenario configuration: strong/medium thresholds 0.04/0.25
(both below 0.30) and gap threshold 0.4. -/
def cfgGapScenario : Config := { cfgDefault with rec_gap_thresh := Q.ofFrac 4 10 }

/-- A track-level candidate with one penalty entry under a chosen key. -/
def matchKeyScore (k : String) (s : Q) : AnyMatch :=
  AnyMatch.track ⟨{ entries := [(k, s)] }, emptyTrackInfo⟩

/-- A one-track candidate release with a falsy (empty) identifier and
album title "X". -/
def albumFalsy1 : AlbumInfo := { emptyAlbumInfo with album := "X" }

/-- A second one-track candidate release with a falsy identifier,
distinguishable from the first. -/
def albumFalsy2 : AlbumInfo := { emptyAlbumInfo with album := "Y" }

/-- A one-track candidate release with a truthy identifier. -/
def albumTruthy : AlbumInfo := { emptyAlbumInfo with album_id := "R1" }

/-- The result set after accumulating the first falsy-id candidate. -/
def cexResults1 : List (String × AlbumMatch) :=
  _add_candidate envDefault cfgDefault [emptyItem] [] albumFalsy1

/-- The result set after also accumulating the second falsy-id
candidate. -/
def cexResults2 : List (String × AlbumMatch) :=
  _add_candidate envDefault cfgDefault [emptyItem] cexResults1 albumFalsy2

/-- The pairing produced by `assign_items` from the solver output:
`zip` with the tracks, resolving assigned item indexes. -/
def assignMapping (env : Env) (cfg : Config) (items : List Item)
    (tracks : List TrackInfo) : List (Item × TrackInfo) :=
  ((env.lapjv (costMatrix env cfg items tracks)).zip tracks).filterMap fun p =>
    match p.1 with
    | some iidx => (items.get? iidx).map fun it => (it, p.2)
    | none => Option.none

/-- The full partition-and-order specification of the Optimal Track
Assignment: every item and every track lands in exactly one of
pairing/extra, the pairing draws from the inputs and pairs each record
at most once, and both extra lists are sorted by their respective
keys. -/
def AssignItemsSpec (env : Env) (cfg : Config) (items : List Item)
    (tracks : List TrackInfo) : Prop :=
  let r := assign_items env cfg items tracks
  (∀ i ∈ items, (i ∈ r.1.map Prod.fst ∧ i ∉ r.2.1)
      ∨ (i ∉ r.1.map Prod.fst ∧ i ∈ r.2.1))
  ∧ (∀ t ∈ tracks, (t ∈ r.1.map Prod.snd ∧ t ∉ r.2.2)
      ∨ (t ∉ r.1.map Prod.snd ∧ t ∈ r.2.2))
  ∧ (∀ p ∈ r.1, p.1 ∈ items ∧ p.2 ∈ tracks)
  ∧ (r.1.map Prod.fst).Nodup
  ∧ (r.1.map Prod.snd).Nodup
  ∧ r.2.1.Pairwise (fun a b => itemLe a b = true)
  ∧ r.2.2.Pairwise (fun a b => trackLe a b = true)

/-- Concrete items for the assignment witness. -/
def itemsAsg : List Item :=
  [{ emptyItem with title := "a" }, { emptyItem with title := "b" },
   { emptyItem with title := "c" }]

/-- Concrete tracks for the assignment witness. -/
def tracksAsg : List TrackInfo :=
  [{ emptyTrackInfo with title := "ta", index := some 1 },
   { emptyTrackInfo with title := "tb", index := some 2 }]

/-- An environment whose solver pairs track 0 with item 1 and track 1
with item 0, leaving item 2 unmatched. -/
def envAsg : Env := { envDefault with lapjv := fun _ => [some 1, some 0] }

/-- A surfaced candidate release that the Candidate Accumulator rejects
whatever the current result set holds: zero tracks, a missing required
field, or an ignored penalty category among its computed Distance.
(The remaining rejection — a duplicate identifier — presupposes an
already-stored candidate, so it cannot occur on a run whose result set
stays empty.) -/
def RejectedCandidate (env : Env) (cfg : Config) (items : List Item)
    (info : AlbumInfo) : Prop :=
  info.tracks = []
  ∨ (∃ req ∈ cfg.required, info.attrIsNone req = true)
  ∨ (∃ pen ∈ cfg.ignored,
      pen ∈ (distance env cfg items info
        (assign_items env cfg items info.tracks).1).keys)

/-- A candidate release with zero tracks — surfaced by search but always
rejected by the accumulator. -/
def albumNoTracks : AlbumInfo := { emptyAlbumInfo with tracks := [] }

/-- An environment whose explicit-ID album search surfaces a zero-track
candidate (which accumulation rejects) and whose other collaborators
return nothing. -/
def envRejected : Env :=
  { envDefault with albums_for_id := fun _ => [albumNoTracks] }

/-!
## Theorems
-/

theorem Q.den_cast_pos (q : Q) : (0 : ℚ) < (q.den : ℚ) := by
  exact_mod_cast Nat.succ_pos q.dm1

theorem Q.den_cast_ne (q : Q) : ((q.den : ℚ)) ≠ 0 :=
  ne_of_gt q.den_cast_pos

theorem Q.toRat_add (a b : Q) : (a + b).toRat = a.toRat + b.toRat := by
  show (Q.add a b).toRat = _
  unfold Q.add Q.toRat
  have hd : ((Q.add a b).den : ℚ) = (a.den : ℚ) * (b.den : ℚ) := by
    unfold Q.add Q.den; push_cast; ring
  rw [div_add_div _ _ a.den_cast_ne b.den_cast_ne]
  unfold Q.den at hd ⊢
  field_simp
  ring

theorem Q.toRat_sub (a b : Q) : (a - b).toRat = a.toRat - b.toRat := by
  show (Q.sub a b).toRat = _
  unfold Q.sub Q.toRat
  rw [div_sub_div _ _ a.den_cast_ne b.den_cast_ne]
  unfold Q.den
  field_simp
  ring

theorem Q.toRat_mul (a b : Q) : (a * b).toRat = a.toRat * b.toRat := by
  show (Q.mul a b).toRat = _
  have hd : (((Q.mul a b).den : ℚ)) = (a.den : ℚ) * (b.den : ℚ) := by
    unfold Q.mul Q.den; push_cast; ring
  unfold Q.toRat
  rw [hd, div_mul_div_comm]
  norm_num [Q.mul]

theorem Q.le_iff (a b : Q) : Q.le a b = true ↔ a.toRat ≤ b.toRat := by
  unfold Q.le Q.toRat
  rw [div_le_div_iff a.den_cast_pos b.den_cast_pos]
  rw [decide_eq_true_eq]
  constructor
  · intro h; exact_mod_cast h
  · intro h; exact_mod_cast h

theorem Q.lt_iff (a b : Q) : Q.lt a b = true ↔ a.toRat < b.toRat := by
  unfold Q.lt Q.toRat
  rw [div_lt_div_iff a.den_cast_pos b.den_cast_pos]
  rw [decide_eq_true_eq]
  constructor
  · intro h; exact_mod_cast h
  · intro h; exact_mod_cast h

theorem Q.not_le_iff (a b : Q) : Q.le a b = false ↔ b.toRat < a.toRat := by
  rw [← not_le, ← Q.le_iff]
  cases Q.le a b <;> simp

theorem Q.not_lt_iff (a b : Q) : Q.lt a b = false ↔ b.toRat ≤ a.toRat := by
  rw [← not_lt, ← Q.lt_iff]
  cases Q.lt a b <;> simp

/-- C6: identifier-based lookup requires unanimous agreement on the
canonical album id across the local records: whenever two records carry
(truthy) canonical album ids that disagree, `match_by_id` returns no
result — for every environment, so in particular no lookup result is
consulted. -/
theorem match_by_id_requires_consensus
    (env : Env) (items : List Item) (i j : Item)
    (hi : i ∈ items) (hj : j ∈ items)
    (hit : i.mb_albumid ≠ "") (hjt : j.mb_albumid ≠ "")
    (hne : i.mb_albumid ≠ j.mb_albumid) :
    match_by_id env items = Option.none := by
  unfold match_by_id
  have hmi : i.mb_albumid ∈
      (items.filter fun it => it.mb_albumid ≠ "").map Item.mb_albumid := by
    exact List.mem_map_of_mem _ (List.mem_filter.mpr ⟨hi, by simpa using hit⟩)
  have hmj : j.mb_albumid ∈
      (items.filter fun it => it.mb_albumid ≠ "").map Item.mb_albumid := by
    exact List.mem_map_of_mem _ (List.mem_filter.mpr ⟨hj, by simpa using hjt⟩)
  cases hl : (items.filter fun it => it.mb_albumid ≠ "").map Item.mb_albumid with
  | nil => rw [hl] at hmi
  | cons first rest =>
    rw [hl] at hmi hmj
    simp only []
    by_cases hall : rest.all (· == first) = true
    · exfalso
      have hax : ∀ x ∈ first :: rest, x = first := by
        intro x hx
        rcases List.mem_cons.mp hx with h | h
        · exact h
        · have := List.all_eq_true.mp hall x h
          simpa using this
      exact hne ((hax _ hmi).trans (hax _ hmj).symm)
    · simp [hall]

/-- Witness for C6, the spec scenario: three records with id "A1" and a
fourth with id "A2" give no result, even though the catalog would
resolve every id. -/
theorem match_by_id_requires_consensus_witness :
    (itemA1 ∈ itemsIdScenario ∧ itemA2 ∈ itemsIdScenario ∧
      itemA1.mb_albumid ≠ "" ∧ itemA2.mb_albumid ≠ "" ∧
      itemA1.mb_albumid ≠ itemA2.mb_albumid) ∧
    match_by_id envLookupAlways itemsIdScenario = Option.none :=
  ⟨by decide,
   match_by_id_requires_consensus envLookupAlways itemsIdScenario itemA1 itemA2
     (by decide) (by decide) (by decide) (by decide) (by decide)⟩

/-- `Distance.add` appends exactly one key. -/
theorem Distance.keys_add (d : Distance) (k : String) (p : Q) :
    (d.add k p).keys = d.keys ++ [k] := by
  simp [Distance.add, Distance.keys]

/-- `Distance.add_ratio` appends exactly one key. -/
theorem Distance.keys_add_ratio (d : Distance) (k : String) (x y : Q) :
    (d.add_ratio k x y).keys = d.keys ++ [k] :=
  d.keys_add k _

/-- `Distance.add_string` appends exactly one key. -/
theorem Distance.keys_add_string (sd : String → String → Q) (d : Distance)
    (k s1 s2 : String) : (d.add_string sd k s1 s2).keys = d.keys ++ [k] :=
  d.keys_add k _

/-- `Distance.add_expr` appends exactly one key. -/
theorem Distance.keys_add_expr (d : Distance) (k : String) (b : Bool) :
    (d.add_expr k b).keys = d.keys ++ [k] :=
  d.keys_add k _

/-- `Distance.add_equality` appends exactly one key. -/
theorem Distance.keys_add_equality (d : Distance) (k : String) (b : Bool) :
    (d.add_equality k b).keys = d.keys ++ [k] :=
  d.keys_add k _

/-- `Distance.update` concatenates the keys of the merged distance. -/
theorem Distance.keys_update (d o : Distance) :
    (d.update o).keys = d.keys ++ o.keys := by
  simp [Distance.update, Distance.keys]

/-- Keys of a literal distance value. -/
theorem Distance.keys_mk (es : List (String × Q)) (ts : List (List (String × Q))) :
    (Distance.mk es ts).keys = es.map Prod.fst := rfl

/-- The penalty-category keys of a track distance, factor by factor. -/
theorem track_distance_keys (env : Env) (cfg : Config) (item : Item)
    (track_info : TrackInfo) (incl_artist : Bool) :
    (track_distance env cfg item track_info incl_artist).keys =
      (if truthyQ track_info.length then ["track_length"] else [])
      ++ ["track_title"]
      ++ (if incl_artist && track_info.artist ≠ ""
            && (strLower item.artist ∉ VA_ARTISTS)
          then ["track_artist"] else [])
      ++ (if truthyNat track_info.index && item.track ≠ 0
          then ["track_index"] else [])
      ++ (if item.mb_trackid ≠ "" then ["track_id"] else [])
      ++ (if truthyNat track_info.medium && item.disc ≠ 0
          then ["medium"] else [])
      ++ (env.plugin_track_dist item track_info).keys := by
  simp only [track_distance]
  split_ifs <;>
    simp [Distance.keys_add_ratio, Distance.keys_add_string,
      Distance.keys_add_expr, Distance.keys_update, Distance.keys_add,
      Distance.keys_mk]

/-- C7: the Track Distance Calculator contributes a `"track_artist"`
category if and only if the artist factor applies: `incl_artist` is
requested, the canonical artist is non-empty, and the local artist is
not (case-insensitively) one of the various-artists sentinels.  (The
plugin hook, being external, is assumed not to use the key
`"track_artist"` of the calculator itself.) -/
theorem track_distance_artist_iff (env : Env) (cfg : Config) (item : Item)
    (track_info : TrackInfo) (incl_artist : Bool)
    (hplug : "track_artist" ∉ (env.plugin_track_dist item track_info).keys) :
    "track_artist" ∈ (track_distance env cfg item track_info incl_artist).keys
      ↔ (incl_artist = true ∧ track_info.artist ≠ ""
          ∧ strLower item.artist ∉ VA_ARTISTS) := by
  rw [track_distance_keys]
  simp only [List.mem_append, List.mem_singleton]
  constructor
  · intro h
    rcases h with ((((((h | h) | h) | h) | h) | h) | h)
    · revert h; split <;> intro h <;> exact absurd h (by decide)
    · exact absurd h (by decide)
    · revert h; split
      · rename_i hc
        intro _
        simp only [Bool.and_eq_true, decide_eq_true_eq] at hc
        exact ⟨hc.1.1, hc.1.2, hc.2⟩
      · intro h; exact absurd h (by decide)
    · revert h; split <;> intro h <;> exact absurd h (by decide)
    · revert h; split <;> intro h <;> exact absurd h (by decide)
    · revert h; split <;> intro h <;> exact absurd h (by decide)
    · exact absurd h hplug
  · rintro ⟨h1, h2, h3⟩
    refine Or.inl (Or.inl (Or.inl (Or.inl (Or.inr ?_))))
    have hc : (incl_artist && track_info.artist ≠ ""
        && (strLower item.artist ∉ VA_ARTISTS)) = true := by
      simp [h1, h2, h3]
    rw [if_pos hc]
    exact List.mem_singleton.mpr rfl

/-- Witness for C7 at a concrete input: with a known canonical artist
and a non-sentinel local artist, requesting the artist factor yields a
`"track_artist"` contribution. -/
theorem track_distance_artist_iff_witness :
    ("track_artist" ∉ (envDefault.plugin_track_dist itemWit trackWit).keys) ∧
    ("track_artist" ∈ (track_distance envDefault cfgDefault itemWit trackWit true).keys
      ↔ (true = true ∧ trackWit.artist ≠ ""
          ∧ strLower itemWit.artist ∉ VA_ARTISTS)) :=
  ⟨by decide,
   track_distance_artist_iff envDefault cfgDefault itemWit trackWit true (by decide)⟩

/-- C10: the track-index penalty fires only when both the canonical
index and the local track number are truthy, and the medium penalty only
when both the canonical medium number and the local disc number are
truthy; a canonical value of 0 is therefore indistinguishable from an
absent one (for the external plugin hook this is assumed). -/
theorem track_distance_zero_truthiness
    (env : Env) (cfg : Config) (item : Item) (track_info : TrackInfo)
    (incl_artist : Bool)
    (hpi : "track_index" ∉ (env.plugin_track_dist item track_info).keys)
    (hpm : "medium" ∉ (env.plugin_track_dist item track_info).keys)
    (hpz : env.plugin_track_dist item { track_info with index := some 0 }
         = env.plugin_track_dist item { track_info with index := Option.none })
    (hmz : env.plugin_track_dist item { track_info with medium := some 0 }
         = env.plugin_track_dist item { track_info with medium := Option.none }) :
    ("track_index" ∈ (track_distance env cfg item track_info incl_artist).keys
        ↔ (truthyNat track_info.index = true ∧ item.track ≠ 0))
    ∧ ("medium" ∈ (track_distance env cfg item track_info incl_artist).keys
        ↔ (truthyNat track_info.medium = true ∧ item.disc ≠ 0))
    ∧ track_distance env cfg item { track_info with index := some 0 } incl_artist
        = track_distance env cfg item { track_info with index := Option.none } incl_artist
    ∧ track_distance env cfg item { track_info with medium := some 0 } incl_artist
        = track_distance env cfg item { track_info with medium := Option.none } incl_artist := by
  refine ⟨?_, ?_, ?_, ?_⟩
  · rw [track_distance_keys]
    simp only [List.mem_append, List.mem_singleton]
    constructor
    · intro h
      rcases h with ((((((h | h) | h) | h) | h) | h) | h)
      · revert h; split <;> intro h <;> exact absurd h (by decide)
      · exact absurd h (by decide)
      · revert h; split <;> intro h <;> exact absurd h (by decide)
      · revert h; split
        · rename_i hc
          intro _
          simp only [Bool.and_eq_true, decide_eq_true_eq] at hc
          exact hc
        · intro h; exact absurd h (by decide)
      · revert h; split <;> intro h <;> exact absurd h (by decide)
      · revert h; split <;> intro h <;> exact absurd h (by decide)
      · exact absurd h hpi
    · rintro ⟨h1, h2⟩
      refine Or.inl (Or.inl (Or.inl (Or.inr ?_)))
      have hc : (truthyNat track_info.index && item.track ≠ 0) = true := by
        simp [h1, h2]
      rw [if_pos hc]
      exact List.mem_singleton.mpr rfl
  · rw [track_distance_keys]
    simp only [List.mem_append, List.mem_singleton]
    constructor
    · intro h
      rcases h with ((((((h | h) | h) | h) | h) | h) | h)
      · revert h; split <;> intro h <;> exact absurd h (by decide)
      · exact absurd h (by decide)
      · revert h; split <;> intro h <;> exact absurd h (by decide)
      · revert h; split <;> intro h <;> exact absurd h (by decide)
      · revert h; split <;> intro h <;> exact absurd h (by decide)
      · revert h; split
        · rename_i hc
          intro _
          simp only [Bool.and_eq_true, decide_eq_true_eq] at hc
          exact hc
        · intro h; exact absurd h (by decide)
      · exact absurd h hpm
    · rintro ⟨h1, h2⟩
      refine Or.inl (Or.inr ?_)
      have hc : (truthyNat track_info.medium && item.disc ≠ 0) = true := by
        simp [h1, h2]
      rw [if_pos hc]
      exact List.mem_singleton.mpr rfl
  · simp [track_distance, truthyNat, track_index_changed, hpz]
  · simp [track_distance, truthyNat, track_index_changed, hmz]

/-- Witness for C10 at a concrete input: with canonical index 2, medium
1, local track 2 and disc 1, both penalties are considered, and setting
either canonical value to 0 is exactly like removing it. -/
theorem track_distance_zero_truthiness_witness :
    (("track_index" ∉ (envDefault.plugin_track_dist itemWit trackWit).keys)
      ∧ ("medium" ∉ (envDefault.plugin_track_dist itemWit trackWit).keys)
      ∧ envDefault.plugin_track_dist itemWit { trackWit with index := some 0 }
          = envDefault.plugin_track_dist itemWit { trackWit with index := Option.none }
      ∧ envDefault.plugin_track_dist itemWit { trackWit with medium := some 0 }
          = envDefault.plugin_track_dist itemWit { trackWit with medium := Option.none })
    ∧ (("track_index" ∈ (track_distance envDefault cfgDefault itemWit trackWit true).keys
        ↔ (truthyNat trackWit.index = true ∧ itemWit.track ≠ 0))
      ∧ ("medium" ∈ (track_distance envDefault cfgDefault itemWit trackWit true).keys
          ↔ (truthyNat trackWit.medium = true ∧ itemWit.disc ≠ 0))
      ∧ track_distance envDefault cfgDefault itemWit { trackWit with index := some 0 } true
          = track_distance envDefault cfgDefault itemWit { trackWit with index := Option.none } true
      ∧ track_distance envDefault cfgDefault itemWit { trackWit with medium := some 0 } true
          = track_distance envDefault cfgDefault itemWit { trackWit with medium := Option.none } true) :=
  ⟨by refine ⟨by decide, by decide, by decide, by decide⟩,
   track_distance_zero_truthiness envDefault cfgDefault itemWit trackWit true
     (by decide) (by decide) (by decide) (by decide)⟩

/-- Invariant of the plurality scan: the accumulator always holds a value
together with its exact frequency; the result is the start value or one
of the scanned values; the recorded frequency never decreases and
dominates the frequency of every scanned value. -/
theorem pluralityStep_fold {α : Type} [DecidableEq α] (xs : List α) :
    ∀ (ys : List α) (b : α) (c : Nat), c = xs.count b →
      (ys.foldl (pluralityStep xs) (b, c)).2
          = xs.count (ys.foldl (pluralityStep xs) (b, c)).1
      ∧ ((ys.foldl (pluralityStep xs) (b, c)).1 = b
          ∨ (ys.foldl (pluralityStep xs) (b, c)).1 ∈ ys)
      ∧ c ≤ (ys.foldl (pluralityStep xs) (b, c)).2
      ∧ ∀ y ∈ ys, xs.count y ≤ (ys.foldl (pluralityStep xs) (b, c)).2
  | [], b, c, hc => ⟨hc, Or.inl rfl, le_refl _, by simp⟩
  | x :: ys, b, c, hc => by
    simp only [List.foldl_cons]
    by_cases hx : xs.count x > c
    · have hstep : pluralityStep xs (b, c) x = (x, xs.count x) := by
        simp [pluralityStep, hx]
      rw [hstep]
      obtain ⟨h1, h2, h3, h4⟩ := pluralityStep_fold xs ys x (xs.count x) rfl
      refine ⟨h1, ?_, le_trans (le_of_lt hx) h3, ?_⟩
      · rcases h2 with h | h
        · exact Or.inr (by rw [h]; exact List.mem_cons_self x ys)
        · exact Or.inr (List.mem_cons_of_mem _ h)
      · intro y hy
        rcases List.mem_cons.mp hy with h | h
        · exact h ▸ h3
        · exact h4 y h
    · have hstep : pluralityStep xs (b, c) x = (b, c) := by
        simp [pluralityStep, hx]
      rw [hstep]
      obtain ⟨h1, h2, h3, h4⟩ := pluralityStep_fold xs ys b c hc
      refine ⟨h1, ?_, h3, ?_⟩
      · rcases h2 with h | h
        · exact Or.inl h
        · exact Or.inr (List.mem_cons_of_mem _ h)
      · intro y hy
        rcases List.mem_cons.mp hy with h | h
        · exact h ▸ le_trans (not_lt.mp hx) h3
        · exact h4 y h

/-- On a non-empty list the plurality scan starts by adopting the head
with its frequency. -/
theorem plurality_cons {α : Type} [DecidableEq α] [Inhabited α]
    (x : α) (ys : List α) :
    plurality (x :: ys)
      = ys.foldl (pluralityStep (x :: ys)) (x, (x :: ys).count x) := by
  unfold plurality
  simp only [List.foldl_cons]
  have hpos : 0 < (x :: ys).count x :=
    List.count_pos_iff.mpr (List.mem_cons_self x ys)
  have : pluralityStep (x :: ys) (default, 0) x = (x, (x :: ys).count x) := by
    simp [pluralityStep, hpos]
  rw [this]

/-- The plurality value of a non-empty list is a most frequent value of
the list, and its reported frequency is that value's frequency. -/
theorem plurality_mostCommon {α : Type} [DecidableEq α] [Inhabited α]
    (x : α) (ys : List α) :
    mostCommonIn (plurality (x :: ys)).1 (x :: ys)
    ∧ (plurality (x :: ys)).2 = (x :: ys).count (plurality (x :: ys)).1 := by
  obtain ⟨h1, h2, h3, h4⟩ :=
    pluralityStep_fold (x :: ys) ys x ((x :: ys).count x) rfl
  rw [plurality_cons]
  refine ⟨⟨?_, ?_⟩, h1⟩
  · rcases h2 with h | h
    · rw [h]; exact List.mem_cons_self x ys
    · exact List.mem_cons_of_mem _ h
  · intro y hy
    rw [← h1]
    rcases List.mem_cons.mp hy with h | h
    · exact h ▸ h3
    · exact h4 y h

/-- The unanimity test of the Consensus Extractor: the plurality
frequency equals the list length exactly when all values agree. -/
theorem plurality_unanimous_iff {α : Type} [DecidableEq α] [Inhabited α]
    (x : α) (ys : List α) :
    (plurality (x :: ys)).2 = (x :: ys).length ↔ unanimousIn (x :: ys) := by
  obtain ⟨⟨hmem, _⟩, hcount⟩ := plurality_mostCommon x ys
  constructor
  · intro h
    rw [hcount] at h
    have hall := List.count_eq_length.mp h
    intro a ha b hb
    exact (hall a ha).symm.trans (hall b hb)
  · intro h
    rw [hcount]
    exact List.count_eq_length.mpr fun b hb => h _ hmem b hb

/-- `fieldConsensus` on a non-empty list: the flag is true exactly under
unanimity and the value is a most frequent value. -/
theorem fieldConsensus_spec {α : Type} [DecidableEq α] [Inhabited α]
    (xs : List α) (h : xs ≠ []) :
    ((fieldConsensus xs).2 = true ↔ unanimousIn xs)
    ∧ mostCommonIn (fieldConsensus xs).1 xs := by
  match xs, h with
  | x :: ys, _ =>
    unfold fieldConsensus
    refine ⟨?_, (plurality_mostCommon x ys).1⟩
    simpa using plurality_unanimous_iff x ys

/-- C5: on every non-empty record set the Consensus Extractor sets each
unanimity flag exactly under per-field agreement, picks a most frequent
value for each field, and lets a unanimous non-empty album artist
override the derived artist. -/
theorem current_metadata_consensus (items : List Item) (h : items ≠ []) :
    CurrentMetadataSpec items := by
  have hne : ∀ {α : Type} (f : Item → α), items.map f ≠ [] := by
    intro α f hmap
    exact h (List.map_eq_nil_iff.mp hmap)
  refine ⟨(fieldConsensus_spec _ (hne Item.artist)).1,
          (fieldConsensus_spec _ (hne Item.album)).1,
          (fieldConsensus_spec _ (hne Item.albumartist)).1,
          (fieldConsensus_spec _ (hne Item.year)).1,
          (fieldConsensus_spec _ (hne Item.disctotal)).1,
          (fieldConsensus_spec _ (hne Item.mb_albumid)).1,
          (fieldConsensus_spec _ (hne Item.label)).1,
          (fieldConsensus_spec _ (hne Item.barcode)).1,
          (fieldConsensus_spec _ (hne Item.catalognum)).1,
          (fieldConsensus_spec _ (hne Item.country)).1,
          (fieldConsensus_spec _ (hne Item.media)).1,
          (fieldConsensus_spec _ (hne Item.albumdisambig)).1,
          (fieldConsensus_spec _ (hne Item.album)).2,
          (fieldConsensus_spec _ (hne Item.albumartist)).2,
          (fieldConsensus_spec _ (hne Item.year)).2,
          (fieldConsensus_spec _ (hne Item.disctotal)).2,
          (fieldConsensus_spec _ (hne Item.mb_albumid)).2,
          (fieldConsensus_spec _ (hne Item.label)).2,
          (fieldConsensus_spec _ (hne Item.barcode)).2,
          (fieldConsensus_spec _ (hne Item.catalognum)).2,
          (fieldConsensus_spec _ (hne Item.country)).2,
          (fieldConsensus_spec _ (hne Item.media)).2,
          (fieldConsensus_spec _ (hne Item.albumdisambig)).2,
          ?_, ?_⟩
  · rintro ⟨hcs, hnz⟩
    have hcs2 : (fieldConsensus (items.map Item.albumartist)).2 = true := hcs
    have hnz2 : (fieldConsensus (items.map Item.albumartist)).1 ≠ "" := hnz
    show (current_metadata items).1.artist = (current_metadata items).1.albumartist
    have he : (current_metadata items).1.artist
        = if (fieldConsensus (items.map Item.albumartist)).2
              && decide ((fieldConsensus (items.map Item.albumartist)).1 ≠ "")
          then (fieldConsensus (items.map Item.albumartist)).1
          else (fieldConsensus (items.map Item.artist)).1 := rfl
    rw [he, if_pos (by simp [hcs2, hnz2])]
    rfl
  · intro hn
    have hcond : ((fieldConsensus (items.map Item.albumartist)).2
        && decide ((fieldConsensus (items.map Item.albumartist)).1 ≠ "")) = false := by
      rcases not_and_or.mp hn with hA | hB
      · have hfalse : (fieldConsensus (items.map Item.albumartist)).2 = false := by
          cases hx : (fieldConsensus (items.map Item.albumartist)).2 with
          | true => exact absurd hx hA
          | false => rfl
        simp [hfalse]
      · have hempty : (fieldConsensus (items.map Item.albumartist)).1 = "" := by
          by_contra hc
          exact hB hc
        simp [hempty]
    show mostCommonIn (current_metadata items).1.artist (items.map Item.artist)
    have he : (current_metadata items).1.artist
        = if (fieldConsensus (items.map Item.albumartist)).2
              && decide ((fieldConsensus (items.map Item.albumartist)).1 ≠ "")
          then (fieldConsensus (items.map Item.albumartist)).1
          else (fieldConsensus (items.map Item.artist)).1 := rfl
    rw [he, hcond]
    simp only [Bool.false_eq_true, if_false]
    exact (fieldConsensus_spec _ (hne Item.artist)).2

/-- Witness for C5, the spec scenario: ten records with unanimous album
artist "Artist X" and pairwise different track artists give
artist = "Artist X", consensus.artist = false,
consensus.albumartist = true. -/
theorem current_metadata_consensus_witness :
    (items10 ≠ []) ∧ CurrentMetadataSpec items10
    ∧ ((current_metadata items10).1.artist = "Artist X"
      ∧ (current_metadata items10).2.artist = false
      ∧ (current_metadata items10).2.albumartist = true) :=
  ⟨by decide, current_metadata_consensus items10 (by decide), by decide⟩

/-- `recMin` is associative (finite check over the enum). -/
theorem recMin_assoc (a b c : Recommendation) :
    recMin (recMin a b) c = recMin a (recMin b c) := by
  cases a <;> cases b <;> cases c <;> rfl

/-- `recMin` never increases its first argument. -/
theorem recMin_le_left (a b : Recommendation) :
    (recMin a b).toNat ≤ a.toNat := by
  cases a <;> cases b <;> simp [recMin, Recommendation.toNat]

/-- `recMin` is monotone in its first argument. -/
theorem recMin_mono_left (a b m : Recommendation) (h : a.toNat ≤ b.toNat) :
    (recMin a m).toNat ≤ (recMin b m).toNat := by
  cases a <;> cases b <;> cases m <;>
    simp_all [recMin, Recommendation.toNat]

/-- The downgrade loop is monotone in the incoming recommendation. -/
theorem applyMaxRec_mono (cfg : Config) :
    ∀ (keys : List String) (a b : Recommendation), a.toNat ≤ b.toNat →
      (applyMaxRec cfg a keys).toNat ≤ (applyMaxRec cfg b keys).toNat
  | [], a, b, h => h
  | k :: ks, a, b, h => by
    simp only [applyMaxRec, List.foldl_cons]
    cases cfg.max_rec k with
    | none => exact applyMaxRec_mono cfg ks a b h
    | some m => exact applyMaxRec_mono cfg ks _ _ (recMin_mono_left a b m h)

/-- The cumulative effect of the downgrade loop: the minimum of the
incoming recommendation and every configured ceiling among the keys. -/
theorem applyMaxRec_eq_min (cfg : Config) :
    ∀ (keys : List String) (r : Recommendation),
      applyMaxRec cfg r keys
        = recMin r ((keys.filterMap cfg.max_rec).foldr recMin .strong)
  | [], r => by
    cases r <;> rfl
  | k :: ks, r => by
    simp only [applyMaxRec, List.foldl_cons, List.filterMap_cons]
    cases hk : cfg.max_rec k with
    | none =>
      exact applyMaxRec_eq_min cfg ks r
    | some m =>
      have := applyMaxRec_eq_min cfg ks (recMin r m)
      simp only [applyMaxRec] at this
      rw [this, List.foldr_cons, recMin_assoc]

/-- C1: the Recommendation Classifier applies its threshold rules in
order — none on empty input; strong below the strong threshold; medium
at or below the medium threshold; low for a single candidate; low when
the gap to the runner-up reaches the gap threshold; terminal none
otherwise, bypassing the downgrade pass.  With no ceilings configured
the downgrade pass is the identity, and with thresholds 0.04/0.25 a best
distance of 0.05 classifies as medium and 0.03 as strong. -/
theorem recommendation_rules
    (env : Env) (cfg : Config) (best : AnyMatch) (rest : List AnyMatch) :
    (_recommendation env cfg [] = .none)
    ∧ (Q.lt (env.dscore best.distance) cfg.strong_rec_thresh = true →
        _recommendation env cfg (best :: rest)
          = applyMaxRec cfg .strong (downgradeKeys best))
    ∧ (Q.lt (env.dscore best.distance) cfg.strong_rec_thresh = false →
       Q.le (env.dscore best.distance) cfg.medium_rec_thresh = true →
        _recommendation env cfg (best :: rest)
          = applyMaxRec cfg .medium (downgradeKeys best))
    ∧ (Q.lt (env.dscore best.distance) cfg.strong_rec_thresh = false →
       Q.le (env.dscore best.distance) cfg.medium_rec_thresh = false →
        _recommendation env cfg [best]
          = applyMaxRec cfg .low (downgradeKeys best))
    ∧ (∀ second rest2,
       Q.lt (env.dscore best.distance) cfg.strong_rec_thresh = false →
       Q.le (env.dscore best.distance) cfg.medium_rec_thresh = false →
       Q.le cfg.rec_gap_thresh
          (env.dscore second.distance - env.dscore best.distance) = true →
        _recommendation env cfg (best :: second :: rest2)
          = applyMaxRec cfg .low (downgradeKeys best))
    ∧ (∀ second rest2,
       Q.lt (env.dscore best.distance) cfg.strong_rec_thresh = false →
       Q.le (env.dscore best.distance) cfg.medium_rec_thresh = false →
       Q.le cfg.rec_gap_thresh
          (env.dscore second.distance - env.dscore best.distance) = false →
        _recommendation env cfg (best :: second :: rest2) = .none)
    ∧ ((∀ k, cfg.max_rec k = Option.none) →
        ∀ r keys, applyMaxRec cfg r keys = r)
    ∧ _recommendation envDefault cfgDefault [scoreMatch (Q.ofFrac 5 100)]
        = .medium
    ∧ _recommendation envDefault cfgDefault [scoreMatch (Q.ofFrac 3 100)]
        = .strong
    ∧ _recommendation envDefault cfgGapScenario
        [scoreMatch (Q.ofFrac 30 100), scoreMatch (Q.ofFrac 90 100)] = .low := by
  refine ⟨rfl, ?_, ?_, ?_, ?_, ?_, ?_, by decide, by decide, by decide⟩
  · intro hs
    simp only [_recommendation, hs, if_true]
  · intro hs hm
    simp only [_recommendation, hs, hm, Bool.false_eq_true, if_false, if_true]
  · intro hs hm
    simp only [_recommendation, hs, hm, Bool.false_eq_true, if_false]
  · intro second rest2 hs hm hg
    simp only [_recommendation, hs, hm, hg, Bool.false_eq_true, if_false, if_true]
  · intro second rest2 hs hm hg
    simp only [_recommendation, hs, hm, hg, Bool.false_eq_true, if_false]
  · intro hnone r keys
    induction keys generalizing r with
    | nil => rfl
    | cons k ks ih =>
      simp only [applyMaxRec, List.foldl_cons, hnone k]
      exact ih r

/-- Witness for C1: the medium rule applied at the 0.05 scenario input
(0.05 not below strong threshold 0.04, at or below medium threshold
0.25). -/
theorem recommendation_rules_witness :
    (Q.lt (envDefault.dscore (scoreMatch (Q.ofFrac 5 100)).distance)
        cfgDefault.strong_rec_thresh = false
      ∧ Q.le (envDefault.dscore (scoreMatch (Q.ofFrac 5 100)).distance)
          cfgDefault.medium_rec_thresh = true)
    ∧ _recommendation envDefault cfgDefault [scoreMatch (Q.ofFrac 5 100)]
        = applyMaxRec cfgDefault .medium
            (downgradeKeys (scoreMatch (Q.ofFrac 5 100))) :=
  ⟨⟨by decide, by decide⟩,
   (recommendation_rules envDefault cfgDefault
      (scoreMatch (Q.ofFrac 5 100)) []).2.2.1 (by decide) (by decide)⟩

/-- C2: whenever the threshold rules yield a recommendation other than
the terminal none, the downgrade pass collects exactly the best
candidate's own penalty keys — plus its per-track keys when and only
when it is a release-level match — and clamps the recommendation to the
minimum of itself and every configured ceiling among those keys; the
scores of the other candidates are all that can influence the outcome
(their keys never do), and the classifier leaves the candidate list it
is given untouched. -/
theorem recommendation_downgrade (env : Env) (cfg : Config) (best : AnyMatch) :
    (∀ (am : AlbumMatch), downgradeKeys (.album am)
        = am.distance.keys
          ++ (am.distance.tracks.map (fun te => te.map Prod.fst)).flatten)
    ∧ (∀ (tm : TrackMatch), downgradeKeys (.track tm) = tm.distance.keys)
    ∧ (∀ r keys, applyMaxRec cfg r keys
        = recMin r ((keys.filterMap cfg.max_rec).foldr recMin .strong))
    ∧ (∀ rest rest2,
        rest.map (fun m => env.dscore m.distance)
          = rest2.map (fun m => env.dscore m.distance) →
        _recommendation env cfg (best :: rest)
          = _recommendation env cfg (best :: rest2))
    ∧ (∀ l, (Proposal.mk l (_recommendation env cfg l)).candidates = l) := by
  refine ⟨fun am => rfl, fun tm => by simp [downgradeKeys, AnyMatch.distance],
    fun r keys => applyMaxRec_eq_min cfg keys r, ?_, fun l => rfl⟩
  intro rest rest2 hmap
  cases rest with
  | nil =>
    cases rest2 with
    | nil => rfl
    | cons s2 t2 => simp at hmap
  | cons s t =>
    cases rest2 with
    | nil => simp at hmap
    | cons s2 t2 =>
      simp only [List.map_cons, List.cons.injEq] at hmap
      obtain ⟨hs, _⟩ := hmap
      simp only [_recommendation, hs]

/-- Witness for C2: two runner-up candidates with equal scores but
different penalty keys leave the classification unchanged. -/
theorem recommendation_downgrade_witness :
    ([matchKeyScore "x" (Q.ofFrac 9 10)].map
        (fun m => envDefault.dscore m.distance)
      = [matchKeyScore "y" (Q.ofFrac 9 10)].map
          (fun m => envDefault.dscore m.distance))
    ∧ _recommendation envDefault cfgDefault
        (scoreMatch (Q.ofFrac 30 100) :: [matchKeyScore "x" (Q.ofFrac 9 10)])
      = _recommendation envDefault cfgDefault
        (scoreMatch (Q.ofFrac 30 100) :: [matchKeyScore "y" (Q.ofFrac 9 10)]) :=
  ⟨by decide,
   (recommendation_downgrade envDefault cfgDefault
      (scoreMatch (Q.ofFrac 30 100))).2.2.2.1
     [matchKeyScore "x" (Q.ofFrac 9 10)] [matchKeyScore "y" (Q.ofFrac 9 10)]
     (by decide)⟩

/-- C8: classification is monotone in the best candidate's aggregate
score — with the same collected penalty keys, the same remaining
candidates and the same configuration, a strictly smaller best score
never yields a lower recommendation (order none < low < medium <
strong). -/
theorem recommendation_monotone
    (env : Env) (cfg : Config) (b1 b2 : AnyMatch) (rest : List AnyMatch)
    (hkeys : downgradeKeys b1 = downgradeKeys b2)
    (hlt : Q.lt (env.dscore b1.distance) (env.dscore b2.distance) = true) :
    (_recommendation env cfg (b2 :: rest)).toNat
      ≤ (_recommendation env cfg (b1 :: rest)).toNat := by
  have hs12 : (env.dscore b1.distance).toRat < (env.dscore b2.distance).toRat :=
    (Q.lt_iff _ _).mp hlt
  simp only [_recommendation]
  by_cases h2s : Q.lt (env.dscore b2.distance) cfg.strong_rec_thresh = true
  · have h1s : Q.lt (env.dscore b1.distance) cfg.strong_rec_thresh = true := by
      rw [Q.lt_iff] at h2s ⊢
      linarith
    simp only [h2s, h1s, if_true, hkeys, le_refl]
  · rw [Bool.not_eq_true] at h2s
    by_cases h2m : Q.le (env.dscore b2.distance) cfg.medium_rec_thresh = true
    · simp only [h2s, h2m, Bool.false_eq_true, if_false, if_true]
      by_cases h1s : Q.lt (env.dscore b1.distance) cfg.strong_rec_thresh = true
      · simp only [h1s, if_true, hkeys]
        exact applyMaxRec_mono cfg _ .medium .strong (by decide)
      · rw [Bool.not_eq_true] at h1s
        have h1m : Q.le (env.dscore b1.distance) cfg.medium_rec_thresh = true := by
          rw [Q.le_iff]
          rw [Q.le_iff] at h2m
          linarith
        simp only [h1s, h1m, Bool.false_eq_true, if_false, if_true, hkeys, le_refl]
    · rw [Bool.not_eq_true] at h2m
      cases rest with
      | nil =>
        simp only [h2s, h2m, Bool.false_eq_true, if_false]
        by_cases h1s : Q.lt (env.dscore b1.distance) cfg.strong_rec_thresh = true
        · simp only [h1s, if_true, hkeys]
          exact applyMaxRec_mono cfg _ .low .strong (by decide)
        · rw [Bool.not_eq_true] at h1s
          by_cases h1m : Q.le (env.dscore b1.distance) cfg.medium_rec_thresh = true
          · simp only [h1s, h1m, Bool.false_eq_true, if_false, if_true, hkeys]
            exact applyMaxRec_mono cfg _ .low .medium (by decide)
          · rw [Bool.not_eq_true] at h1m
            simp only [h1s, h1m, Bool.false_eq_true, if_false, hkeys, le_refl]
      | cons second t =>
        by_cases h2g : Q.le cfg.rec_gap_thresh
            (env.dscore second.distance - env.dscore b2.distance) = true
        · have h1g : Q.le cfg.rec_gap_thresh
              (env.dscore second.distance - env.dscore b1.distance) = true := by
            rw [Q.le_iff] at h2g ⊢
            rw [Q.toRat_sub] at h2g ⊢
            linarith
          simp only [h2s, h2m, h2g, Bool.false_eq_true, if_false, if_true]
          by_cases h1s : Q.lt (env.dscore b1.distance) cfg.strong_rec_thresh = true
          · simp only [h1s, if_true, hkeys]
            exact applyMaxRec_mono cfg _ .low .strong (by decide)
          · rw [Bool.not_eq_true] at h1s
            by_cases h1m : Q.le (env.dscore b1.distance) cfg.medium_rec_thresh = true
            · simp only [h1s, h1m, Bool.false_eq_true, if_false, if_true, hkeys]
              exact applyMaxRec_mono cfg _ .low .medium (by decide)
            · rw [Bool.not_eq_true] at h1m
              simp only [h1s, h1m, h1g, Bool.false_eq_true, if_false, if_true,
                hkeys, le_refl]
        · rw [Bool.not_eq_true] at h2g
          simp only [h2s, h2m, h2g, Bool.false_eq_true, if_false]
          exact Nat.zero_le _

/-- Witness for C8: lowering the best score from 0.30 to 0.05 (same
keys, same runner-up) raises the classification. -/
theorem recommendation_monotone_witness :
    (downgradeKeys (scoreMatch (Q.ofFrac 5 100))
        = downgradeKeys (scoreMatch (Q.ofFrac 30 100))
      ∧ Q.lt (envDefault.dscore (scoreMatch (Q.ofFrac 5 100)).distance)
          (envDefault.dscore (scoreMatch (Q.ofFrac 30 100)).distance) = true)
    ∧ (_recommendation envDefault cfgDefault
          (scoreMatch (Q.ofFrac 30 100) :: [scoreMatch (Q.ofFrac 9 10)])).toNat
        ≤ (_recommendation envDefault cfgDefault
          (scoreMatch (Q.ofFrac 5 100) :: [scoreMatch (Q.ofFrac 9 10)])).toNat :=
  ⟨⟨by decide, by decide⟩,
   recommendation_monotone envDefault cfgDefault
     (scoreMatch (Q.ofFrac 5 100)) (scoreMatch (Q.ofFrac 30 100))
     [scoreMatch (Q.ofFrac 9 10)] (by decide) (by decide)⟩

/-- Counterexample to C4 as stated: a candidate whose (falsy, empty)
identifier already appears in the result set is not rejected, and
storing it overwrites the existing entry under that identifier — the
duplicate check `info.album_id and info.album_id in results` is skipped
for a falsy identifier. -/
theorem addCandidate_overwrite_cex :
    albumFalsy2.album_id ∈ cexResults1.map Prod.fst
    ∧ cexResults2 ≠ cexResults1
    ∧ cexResults1.map Prod.fst = [""]
    ∧ cexResults2.map Prod.fst = [""]
    ∧ (cexResults1.map fun p => p.2.info.album) = ["X"]
    ∧ (cexResults2.map fun p => p.2.info.album) = ["Y"] := by
  decide

/-- `dictInsert` with a fresh key appends. -/
theorem dictInsert_not_mem {α : Type} (k : String) (v : α) :
    ∀ (l : List (String × α)), k ∉ l.map Prod.fst →
      dictInsert k v l = l ++ [(k, v)]
  | [], _ => rfl
  | (k2, v2) :: rest, h => by
    have hk : ¬(k2 == k) = true := by
      simp only [List.map_cons, List.mem_cons] at h
      simp only [beq_iff_eq]
      exact fun he => h (Or.inl he.symm)
    simp only [dictInsert, hk, Bool.false_eq_true, if_false, List.cons_append,
      List.cons.injEq, true_and]
    exact dictInsert_not_mem k v rest fun hm => by
      simp only [List.map_cons, List.mem_cons] at h
      exact h (Or.inr hm)

/-- C4 (amended): the Candidate Accumulator leaves the result set
unchanged on a zero-track candidate, on a candidate whose truthy
identifier already appears, on a missing required field, or on an
ignored penalty category; otherwise — when the identifier is not already
a key of the result set — it appends the scored match under the
candidate's identifier without touching existing entries.  (With a falsy
identifier the duplicate check is skipped, see the counterexample.) -/
theorem addCandidate_spec
    (env : Env) (cfg : Config) (items : List Item)
    (results : List (String × AlbumMatch)) (info : AlbumInfo) :
    (info.tracks = [] → _add_candidate env cfg items results info = results)
    ∧ (info.album_id ≠ "" → info.album_id ∈ results.map Prod.fst →
        _add_candidate env cfg items results info = results)
    ∧ ((∃ req ∈ cfg.required, info.attrIsNone req = true) →
        _add_candidate env cfg items results info = results)
    ∧ (info.tracks ≠ [] →
       (∀ req ∈ cfg.required, info.attrIsNone req = false) →
       (∃ pen ∈ cfg.ignored,
          pen ∈ (distance env cfg items info
            (assign_items env cfg items info.tracks).1).keys) →
        _add_candidate env cfg items results info = results)
    ∧ (info.tracks ≠ [] →
       info.album_id ∉ results.map Prod.fst →
       (∀ req ∈ cfg.required, info.attrIsNone req = false) →
       (∀ pen ∈ cfg.ignored,
          pen ∉ (distance env cfg items info
            (assign_items env cfg items info.tracks).1).keys) →
        _add_candidate env cfg items results info
          = results ++ [(info.album_id,
              ⟨distance env cfg items info
                  (assign_items env cfg items info.tracks).1, info,
                (assign_items env cfg items info.tracks).1,
                (assign_items env cfg items info.tracks).2.1,
                (assign_items env cfg items info.tracks).2.2⟩)]) := by
  refine ⟨?_, ?_, ?_, ?_, ?_⟩
  · intro h
    simp only [_add_candidate, h, if_true]
  · intro h1 h2
    simp only [_add_candidate]
    split
    · rfl
    · rw [if_pos (by simp [h1, h2])]
  · intro h
    simp only [_add_candidate]
    split
    · rfl
    · split
      · rfl
      · rw [if_pos (by simpa [List.any_eq_true] using h)]
  · intro h1 h3 h4
    simp only [_add_candidate, h1, if_false]
    split
    · rfl
    · rw [if_neg (by
        simp only [List.any_eq_true, decide_eq_true_eq]
        rintro ⟨req, hmem, hreq⟩
        rw [h3 req hmem] at hreq
        exact Bool.false_ne_true hreq)]
      rw [if_pos (by
        simp only [List.any_eq_true, decide_eq_true_eq]
        exact h4)]
  · intro h1 h2 h3 h4
    simp only [_add_candidate, h1, if_false]
    rw [if_neg (by simp [h2])]
    rw [if_neg (by
      simp only [List.any_eq_true, decide_eq_true_eq]
      rintro ⟨req, hmem, hreq⟩
      rw [h3 req hmem] at hreq
      exact Bool.false_ne_true hreq)]
    rw [if_neg (by
      simp only [List.any_eq_true, decide_eq_true_eq]
      rintro ⟨pen, hmem, hp⟩
      exact h4 pen hmem hp)]
    exact dictInsert_not_mem _ _ results h2

/-- Witness for C4 (amended): a fresh truthy-id candidate passing every
check is appended to an empty result set under its identifier. -/
theorem addCandidate_spec_witness :
    (albumTruthy.tracks ≠ []
      ∧ albumTruthy.album_id ∉ (([] : List (String × AlbumMatch)).map Prod.fst)
      ∧ (∀ req ∈ cfgDefault.required, albumTruthy.attrIsNone req = false)
      ∧ (∀ pen ∈ cfgDefault.ignored,
          pen ∉ (distance envDefault cfgDefault [emptyItem] albumTruthy
            (assign_items envDefault cfgDefault [emptyItem] albumTruthy.tracks).1).keys))
    ∧ _add_candidate envDefault cfgDefault [emptyItem] [] albumTruthy
        = [] ++ [(albumTruthy.album_id,
            ⟨distance envDefault cfgDefault [emptyItem] albumTruthy
                (assign_items envDefault cfgDefault [emptyItem] albumTruthy.tracks).1,
              albumTruthy,
              (assign_items envDefault cfgDefault [emptyItem] albumTruthy.tracks).1,
              (assign_items envDefault cfgDefault [emptyItem] albumTruthy.tracks).2.1,
              (assign_items envDefault cfgDefault [emptyItem] albumTruthy.tracks).2.2⟩)] :=
  ⟨⟨by decide, by decide, by decide, by decide⟩,
   (addCandidate_spec envDefault cfgDefault [emptyItem] [] albumTruthy).2.2.2.2
     (by decide) (by decide) (by decide) (by decide)⟩

/-- `leChars` is transitive. -/
theorem leChars_trans : ∀ (xs ys zs : List Char),
    leChars xs ys = true → leChars ys zs = true → leChars xs zs = true
  | [], _, _, _, _ => rfl
  | x :: xs, [], _, h1, _ => by simp [leChars] at h1
  | x :: xs, y :: ys, [], _, h2 => by simp [leChars] at h2
  | x :: xs, y :: ys, z :: zs, h1, h2 => by
    simp only [leChars] at h1 h2 ⊢
    split_ifs at h1 h2 ⊢ <;>
      first
        | rfl
        | exact leChars_trans xs ys zs h1 h2
        | (exfalso; omega)
        | (simp_all; done)

/-- `leChars` is total. -/
theorem leChars_total : ∀ (xs ys : List Char),
    (leChars xs ys || leChars ys xs) = true
  | [], _ => by simp [leChars]
  | _ :: _, [] => by simp [leChars]
  | x :: xs, y :: ys => by
    simp only [leChars]
    split_ifs <;>
      first
        | rfl
        | exact leChars_total xs ys
        | (exfalso; omega)
        | (simp; done)

/-- `natThen` chains transitivity through its numeric component. -/
theorem natThen_trans (x y z : Nat) (k1 k2 k3 : Bool)
    (hk : k1 = true → k2 = true → k3 = true) :
    natThen x y k1 = true → natThen y z k2 = true → natThen x z k3 = true := by
  unfold natThen
  split_ifs <;> intro h1 h2 <;>
    first
      | rfl
      | exact hk h1 h2
      | (exfalso; omega)
      | (simp_all; done)

/-- `natThen` chains totality through its numeric component. -/
theorem natThen_total (x y : Nat) (k1 k2 : Bool) (hk : (k1 || k2) = true) :
    (natThen x y k1 || natThen y x k2) = true := by
  unfold natThen
  split_ifs <;>
    first
      | rfl
      | exact hk
      | (exfalso; omega)
      | (simp; done)

/-- The extra-item sort order is transitive. -/
theorem itemLe_trans (a b c : Item)
    (h1 : itemLe a b = true) (h2 : itemLe b c = true) : itemLe a c = true := by
  unfold itemLe at h1 h2 ⊢
  refine natThen_trans _ _ _ _ _ _ (fun p1 p2 => ?_) h1 h2
  refine natThen_trans _ _ _ _ _ _ (fun q1 q2 => ?_) p1 p2
  exact leChars_trans _ _ _ q1 q2

/-- The extra-item sort order is total. -/
theorem itemLe_total (a b : Item) : (itemLe a b || itemLe b a) = true := by
  unfold itemLe
  exact natThen_total _ _ _ _ (natThen_total _ _ _ _ (leChars_total _ _))

/-- The extra-track sort order is transitive. -/
theorem trackLe_trans (a b c : TrackInfo)
    (h1 : trackLe a b = true) (h2 : trackLe b c = true) : trackLe a c = true := by
  unfold trackLe at h1 h2 ⊢
  refine natThen_trans _ _ _ _ _ _ (fun q1 q2 => ?_) h1 h2
  exact leChars_trans _ _ _ q1 q2

/-- The extra-track sort order is total. -/
theorem trackLe_total (a b : TrackInfo) : (trackLe a b || trackLe b a) = true := by
  unfold trackLe
  exact natThen_total _ _ _ _ (leChars_total _ _)

/-- Every item appearing in the pairing was resolved from an assigned
solver index. -/
theorem assignMapping_fst_mem (items : List Item) :
    ∀ (asg : List (Option Nat)) (tracks : List TrackInfo) (x : Item),
      x ∈ ((asg.zip tracks).filterMap fun p =>
          match p.1 with
          | some iidx => (items.get? iidx).map fun it => (it, p.2)
          | none => Option.none).map Prod.fst →
      ∃ j ∈ asg.filterMap id, items.get? j = some x
  | [], tracks, x, h => by simp at h
  | oi :: asg, [], x, h => by simp at h
  | some i :: asg, t :: tracks, x, h => by
    simp only [List.zip_cons_cons, List.filterMap_cons] at h
    cases hg : items.get? i with
    | none =>
      rw [hg] at h
      simp only [Option.map_none'] at h
      obtain ⟨j, hj, hgj⟩ := assignMapping_fst_mem items asg tracks x h
      exact ⟨j, by simpa using Or.inr hj, hgj⟩
    | some it =>
      rw [hg] at h
      simp only [Option.map_some', List.map_cons, List.mem_cons] at h
      rcases h with h | h
      · exact ⟨i, by simp, h ▸ hg⟩
      · obtain ⟨j, hj, hgj⟩ := assignMapping_fst_mem items asg tracks x h
        exact ⟨j, by simpa using Or.inr hj, hgj⟩
  | none :: asg, t :: tracks, x, h => by
    simp only [List.zip_cons_cons, List.filterMap_cons] at h
    obtain ⟨j, hj, hgj⟩ := assignMapping_fst_mem items asg tracks x h
    exact ⟨j, by simpa using hj, hgj⟩

/-- With pairwise distinct assigned indexes and distinct items, no item
is paired twice. -/
theorem assignMapping_fst_nodup (items : List Item) (hit : items.Nodup) :
    ∀ (asg : List (Option Nat)) (tracks : List TrackInfo),
      (asg.filterMap id).Nodup →
      (((asg.zip tracks).filterMap fun p =>
          match p.1 with
          | some iidx => (items.get? iidx).map fun it => (it, p.2)
          | none => Option.none).map Prod.fst).Nodup
  | [], tracks, _ => by simp
  | oi :: asg, [], _ => by simp
  | some i :: asg, t :: tracks, hs => by
    have hs' : (i :: asg.filterMap id).Nodup := by simpa using hs
    rw [List.nodup_cons] at hs'
    simp only [List.zip_cons_cons, List.filterMap_cons]
    cases hg : items.get? i with
    | none =>
      exact assignMapping_fst_nodup items hit asg tracks hs'.2
    | some it =>
      simp only [Option.map_some', List.map_cons, List.nodup_cons]
      refine ⟨?_, assignMapping_fst_nodup items hit asg tracks hs'.2⟩
      intro hmem
      obtain ⟨j, hj, hgj⟩ := assignMapping_fst_mem items asg tracks it hmem
      have hlt : i < items.length := by
        rcases List.get?_eq_some.mp hg with ⟨hl, _⟩
        exact hl
      have : i = j := List.get?_inj hlt hit (hg.trans hgj.symm)
      exact hs'.1 (this ▸ hj)
  | none :: asg, t :: tracks, hs => by
    have hs' : (asg.filterMap id).Nodup := by simpa using hs
    simp only [List.zip_cons_cons, List.filterMap_cons]
    exact assignMapping_fst_nodup items hit asg tracks hs'

/-- The tracks of the pairing form a sublist of the canonical tracks. -/
theorem assignMapping_snd_sublist (items : List Item) :
    ∀ (asg : List (Option Nat)) (tracks : List TrackInfo),
      (((asg.zip tracks).filterMap fun p =>
          match p.1 with
          | some iidx => (items.get? iidx).map fun it => (it, p.2)
          | none => Option.none).map Prod.snd).Sublist tracks
  | [], tracks => by simp
  | oi :: asg, [] => by simp
  | some i :: asg, t :: tracks => by
    simp only [List.zip_cons_cons, List.filterMap_cons]
    cases hg : items.get? i with
    | none =>
      exact (assignMapping_snd_sublist items asg tracks).cons t
    | some it =>
      simp only [Option.map_some', List.map_cons]
      exact (assignMapping_snd_sublist items asg tracks).cons₂ t
  | none :: asg, t :: tracks => by
    simp only [List.zip_cons_cons, List.filterMap_cons]
    exact (assignMapping_snd_sublist items asg tracks).cons t

/-- Every pair of the pairing draws its item from `items` and its track
from `tracks`. -/
theorem assignMapping_mem (env : Env) (cfg : Config) (items : List Item)
    (tracks : List TrackInfo) (p : Item × TrackInfo)
    (hp : p ∈ assignMapping env cfg items tracks) :
    p.1 ∈ items ∧ p.2 ∈ tracks := by
  unfold assignMapping at hp
  rw [List.mem_filterMap] at hp
  obtain ⟨⟨oi, t⟩, haz, hfa⟩ := hp
  cases oi with
  | none => simp at hfa
  | some i =>
    dsimp only at hfa
    cases hg : items.get? i with
    | none => rw [hg] at hfa; simp at hfa
    | some it =>
      rw [hg] at hfa
      simp only [Option.map_some', Option.some.injEq] at hfa
      subst hfa
      exact ⟨List.get?_mem hg, (List.of_mem_zip haz).2⟩

/-- C3: the Optimal Track Assignment partitions the inputs — given
distinct items, distinct tracks and a solver output without repeated
item indexes, every local item lands in exactly one of pairing/extra
items, every canonical track in exactly one of pairing/extra tracks, no
record is paired twice, and the extra lists are sorted by
(disc, track, title) and (index, title) respectively. -/
theorem assign_items_partition (env : Env) (cfg : Config)
    (items : List Item) (tracks : List TrackInfo)
    (hitems : items.Nodup) (htracks : tracks.Nodup)
    (hsolver : ((env.lapjv (costMatrix env cfg items tracks)).filterMap id).Nodup) :
    AssignItemsSpec env cfg items tracks := by
  have hmap : (assign_items env cfg items tracks).1
      = assignMapping env cfg items tracks := rfl
  have hext1 : (assign_items env cfg items tracks).2.1
      = (items.filter fun i =>
          i ∉ (assignMapping env cfg items tracks).map Prod.fst).mergeSort
          itemLe := rfl
  have hext2 : (assign_items env cfg items tracks).2.2
      = (tracks.filter fun t =>
          t ∉ (assignMapping env cfg items tracks).map Prod.snd).mergeSort
          trackLe := rfl
  unfold AssignItemsSpec
  refine ⟨?_, ?_, ?_, ?_, ?_, ?_, ?_⟩
  · intro i hi
    rw [hmap, hext1]
    by_cases hm : i ∈ (assignMapping env cfg items tracks).map Prod.fst
    · left
      refine ⟨hm, ?_⟩
      rw [List.mem_mergeSort, List.mem_filter]
      rintro ⟨-, hdec⟩
      rw [decide_eq_true_eq] at hdec
      exact hdec hm
    · right
      refine ⟨hm, ?_⟩
      rw [List.mem_mergeSort, List.mem_filter]
      exact ⟨hi, by simpa using hm⟩
  · intro t ht
    rw [hmap, hext2]
    by_cases hm : t ∈ (assignMapping env cfg items tracks).map Prod.snd
    · left
      refine ⟨hm, ?_⟩
      rw [List.mem_mergeSort, List.mem_filter]
      rintro ⟨-, hdec⟩
      rw [decide_eq_true_eq] at hdec
      exact hdec hm
    · right
      refine ⟨hm, ?_⟩
      rw [List.mem_mergeSort, List.mem_filter]
      exact ⟨ht, by simpa using hm⟩
  · intro p hp
    rw [hmap] at hp
    exact assignMapping_mem env cfg items tracks p hp
  · rw [hmap]
    exact assignMapping_fst_nodup items hitems _ tracks hsolver
  · rw [hmap]
    exact (assignMapping_snd_sublist items _ tracks).nodup htracks
  · rw [hext1]
    exact List.sorted_mergeSort itemLe_trans itemLe_total _
  · rw [hext2]
    exact List.sorted_mergeSort trackLe_trans trackLe_total _

/-- Witness for C3: three distinct items, two distinct tracks, and a
solver assigning item 1 to track 0 and item 0 to track 1. -/
theorem assign_items_partition_witness :
    (itemsAsg.Nodup ∧ tracksAsg.Nodup
      ∧ ((envAsg.lapjv (costMatrix envAsg cfgDefault itemsAsg tracksAsg)).filterMap id).Nodup)
    ∧ AssignItemsSpec envAsg cfgDefault itemsAsg tracksAsg :=
  ⟨⟨by decide, by decide, by decide⟩,
   assign_items_partition envAsg cfgDefault itemsAsg tracksAsg
     (by decide) (by decide) (by decide)⟩

/-- With an empty track catalog the ID-search loop of `tag_item` passes
its accumulator through unchanged. -/
theorem tagItemIds_empty (env : Env) (cfg : Config) (item : Item)
    (h : ∀ tid, env.tracks_for_id tid = []) :
    ∀ (tids : List String) (cands : List (String × TrackMatch))
      (r : Option Recommendation),
      tagItemIds env cfg item tids cands r = Sum.inl (cands, r)
  | [], cands, r => rfl
  | tid :: tids, cands, r => by
    simp only [tagItemIds, h tid, tagItemIdLoop]
    exact tagItemIds_empty env cfg item h tids cands r

/-- A candidate the accumulator always rejects leaves any result set
unchanged. -/
theorem addCandidate_rejected (env : Env) (cfg : Config) (items : List Item)
    (results : List (String × AlbumMatch)) (info : AlbumInfo)
    (h : RejectedCandidate env cfg items info) :
    _add_candidate env cfg items results info = results := by
  rcases h with h | h | h
  · exact (addCandidate_spec env cfg items results info).1 h
  · exact (addCandidate_spec env cfg items results info).2.2.1 h
  · simp only [_add_candidate]
    split
    · rfl
    · split
      · rfl
      · split
        · rfl
        · rw [if_pos (by
            simp only [List.any_eq_true, decide_eq_true_eq]
            exact h)]

/-- Folding the accumulator over candidates it always rejects leaves the
result set unchanged. -/
theorem addCandidateFold_rejected (env : Env) (cfg : Config)
    (items : List Item) :
    ∀ (infos : List AlbumInfo),
      (∀ info ∈ infos, RejectedCandidate env cfg items info) →
      ∀ (cands : List (String × AlbumMatch)),
        infos.foldl (fun c info => _add_candidate env cfg items c info) cands
          = cands
  | [], _, _ => rfl
  | info :: infos, h, cands => by
    simp only [List.foldl_cons,
      addCandidate_rejected env cfg items cands info (h info (List.mem_cons_self info infos))]
    exact addCandidateFold_rejected env cfg items infos
      (fun i hi => h i (List.mem_cons_of_mem _ hi)) cands

/-- The explicit-ID accumulation loop of `tag_album` leaves the result
set unchanged when every surfaced candidate is one the accumulator
rejects. -/
theorem albumIdFold_rejected (env : Env) (cfg : Config) (items : List Item)
    (h : ∀ sid, ∀ info ∈ env.albums_for_id sid,
      RejectedCandidate env cfg items info) :
    ∀ (sids : List String) (cands : List (String × AlbumMatch)),
      sids.foldl (fun cands search_id =>
        (env.albums_for_id search_id).foldl
          (fun c info => _add_candidate env cfg items c info) cands) cands
        = cands
  | [], _ => rfl
  | sid :: sids, cands => by
    simp only [List.foldl_cons,
      addCandidateFold_rejected env cfg items (env.albums_for_id sid) (h sid) cands]
    exact albumIdFold_rejected env cfg items h sids cands

/-- A successful `match_by_id` result comes from the catalog lookup. -/
theorem match_by_id_some (env : Env) (items : List Item) (info : AlbumInfo)
    (h : match_by_id env items = some info) :
    ∃ mbid, env.album_for_mbid mbid = some info := by
  unfold match_by_id at h
  rcases hl : (items.filter fun i => i.mb_albumid ≠ "").map Item.mb_albumid
    with _ | ⟨first, rest⟩
  · rw [hl] at h
    simp at h
  · rw [hl] at h
    dsimp only at h
    cases hcond : rest.all (· == first) with
    | true =>
      rw [hcond] at h
      simp only [if_true] at h
      exact ⟨first, h⟩
    | false =>
      rw [hcond] at h
      simp at h

/-- C9: inconclusive matching never raises — on every input where no
candidate survives lookup or accumulation (the track searches surface
nothing, and every release the album searches or the ID lookup surface
is rejected by the accumulator: zero tracks, a missing required field,
or an ignored penalty), `_recommendation` classifies the empty list as
none, `tag_item` (in particular with explicit search ids) returns `some`
of the empty Proposal with recommendation none instead of failing its
assertion, and `tag_album` likewise returns the empty Proposal with
recommendation none. -/
theorem empty_matching_yields_none_proposal
    (env : Env) (cfg : Config) (item : Item) (items : List Item)
    (sa st : Option String) (ids : List String)
    (h1 : ∀ tid, env.tracks_for_id tid = [])
    (h2 : ∀ a t, env.item_candidates item a t = [])
    (h3 : ∀ sid, ∀ info ∈ env.albums_for_id sid,
      RejectedCandidate env cfg items info)
    (h4 : ∀ mbid info, env.album_for_mbid mbid = some info →
      RejectedCandidate env cfg items info)
    (h5 : ∀ a b v e, ∀ info ∈ env.album_candidates items a b v e,
      RejectedCandidate env cfg items info) :
    _recommendation env cfg [] = .none
    ∧ tag_item env cfg item sa st ids = some (Proposal.mk [] .none)
    ∧ (tag_album env cfg items sa st ids).2.2 = Proposal.mk [] .none := by
  refine ⟨rfl, ?_, ?_⟩
  · unfold tag_item
    dsimp only
    rw [tagItemIds_empty env cfg item h1]
    dsimp only
    by_cases hids : ids.isEmpty
    · simp [hids, h2, _sort_candidates, trackValues, _recommendation]
    · simp [hids]
  · unfold tag_album
    dsimp only
    rw [albumIdFold_rejected env cfg items h3]
    by_cases hids : ids.isEmpty
    · cases hmb : match_by_id env items with
      | none =>
        simp only [hids, Bool.not_true, Bool.false_eq_true, if_false, hmb]
        rw [addCandidateFold_rejected env cfg items _ (h5 _ _ _ _)]
        simp [_sort_candidates, albumValues, _recommendation]
      | some info =>
        obtain ⟨mbid, hm⟩ := match_by_id_some env items info hmb
        have hrej := h4 mbid info hm
        simp only [hids, Bool.not_true, Bool.false_eq_true, if_false, hmb]
        rw [addCandidate_rejected env cfg items [] info hrej]
        simp only [albumValues, List.map_nil, List.isEmpty_nil, Bool.not_true,
          Bool.false_and, Bool.false_eq_true, if_false]
        rw [addCandidateFold_rejected env cfg items _ (h5 _ _ _ _)]
        simp [_sort_candidates, albumValues, _recommendation]
    · simp [hids, _sort_candidates, albumValues, _recommendation]

/-- Witness for C9: the explicit-ID album search surfaces a zero-track
candidate, accumulation rejects it, and both entry points return the
empty Proposal with recommendation none. -/
theorem empty_matching_yields_none_proposal_witness :
    tag_item envRejected cfgDefault emptyItem Option.none Option.none ["x"]
        = some (Proposal.mk [] .none)
    ∧ (tag_album envRejected cfgDefault [emptyItem]
        Option.none Option.none ["x"]).2.2 = Proposal.mk [] .none :=
  have hr : ∀ sid, ∀ info ∈ envRejected.albums_for_id sid,
      RejectedCandidate envRejected cfgDefault [emptyItem] info := by
    intro sid info hmem
    have hmem2 : info ∈ [albumNoTracks] := hmem
    rw [List.mem_singleton] at hmem2
    subst hmem2
    exact Or.inl rfl
  ⟨(empty_matching_yields_none_proposal envRejected cfgDefault emptyItem
      [emptyItem] Option.none Option.none ["x"] (fun _ => rfl) (fun _ _ => rfl)
      hr (fun _ _ h => Option.noConfusion h)
      (fun _ _ _ _ info hmem => absurd hmem (List.not_mem_nil info))).2.1,
   (empty_matching_yields_none_proposal envRejected cfgDefault emptyItem
      [emptyItem] Option.none Option.none ["x"] (fun _ => rfl) (fun _ _ => rfl)
      hr (fun _ _ h => Option.noConfusion h)
      (fun _ _ _ _ info hmem => absurd hmem (List.not_mem_nil info))).2.2⟩
